import Mathlib

/-!
Verification of the OSPFS journaling file-system module (ospfsmod.c).

The development shallowly embeds the data model and the operations of
ospfsmod.c: the free-block bitmap allocator, the block-addressing chain,
the batched resize engine (grow/shrink), the journal encode/replay
functions, directory creation, symbolic links, and `ospfs_read`.
Machine integers of the C source are modelled as `Nat`/`Int`; the block
store is a map from block numbers to typed block views; fallible C
functions returning a negative errno become functions returning an `Int`
status paired with the updated state.

Constants mirror ospfs.h (block size 1024 bytes, 10 direct pointers,
256 pointers per indirect block); `journal.h` supplies the journal
layout.  The constants `JOURNAL_ALLOC` and `JOURNAL_CREATE` are
referenced by ospfsmod.c but their defining header lines are not in the
sources; they are modelled from the spec as two further distinct
operation kinds.
-/

/-! ## Constants (ospfs.h / journal.h) -/

def OSPFS_BLKSIZE : Nat := 1024
def OSPFS_NDIRECT : Nat := 10
def OSPFS_NINDIRECT : Nat := 256
def OSPFS_MAXFILESIZE : Nat :=
  (OSPFS_NDIRECT + OSPFS_NINDIRECT + OSPFS_NINDIRECT * OSPFS_NINDIRECT) * OSPFS_BLKSIZE
def OSPFS_MAXNAMELEN : Nat := 24
def OSPFS_DIRENTRY_SIZE : Nat := 32
def OSPFS_FTYPE_REG : Nat := 0
def OSPFS_FTYPE_DIR : Nat := 1
def OSPFS_FTYPE_SYMLINK : Nat := 2

def JOURNAL_EMPTY : Nat := 0
def JOURNAL_WRITE : Nat := 1
def JOURNAL_FREE : Nat := 2
def JOURNAL_SYMLNK : Nat := 3
def JOURNAL_HRDLNK : Nat := 4
/-- Modelled from the spec: `JOURNAL_ALLOC` is used by ospfsmod.c
(grow path) but its `#define` is not among the sources; any value
distinct from the five kinds in journal.h is faithful. -/
def JOURNAL_ALLOC : Nat := 5
/-- Modelled from the spec: `JOURNAL_CREATE` is used by ospfsmod.c
(create path) but its `#define` is not among the sources. -/
def JOURNAL_CREATE : Nat := 6

def JOURNAL_MAX_BLOCKS : Nat := 256

def JOURNAL_RESIZE_NORMAL : Nat := 0
def JOURNAL_RESIZE_INDIRECT : Nat := 1
def JOURNAL_RESIZE_INDIRECT2 : Nat := 2

/-- Error numbers (Linux errno values: ENOENT, EIO, EFAULT, EEXIST,
ENOSPC, ENAMETOOLONG); the C code returns their negations.  Lowercase
names avoid clashing with Lean's builtin `EIO`. -/
def enoent : Int := 2
def eio : Int := 5
def efault : Int := 14
def eexist : Int := 17
def enospc : Int := 28
def enametoolong : Int := 36

/-! ## Data model -/

/-- On-disk directory entry `ospfs_direntry_t`: inode number plus a
`char od_name[OSPFS_MAXNAMELEN + 1]` array. -/
structure Direntry where
  od_ino : Nat
  od_name : List Char
  deriving DecidableEq, Repr

/-- A block of the store, viewed at the type it is used at in the C
code: either an array of `u32` words (chain blocks, raw data) or an
array of directory entries. -/
inductive BlockData where
  | raw : List Nat → BlockData
  | dir : List Direntry → BlockData
  deriving DecidableEq, Repr

/-- Read a block as a `u32` array (the view `uint32_t *` casts give). -/
def BlockData.asRaw : BlockData → List Nat
  | .raw l => l
  | .dir _ => List.replicate OSPFS_NINDIRECT 0

/-- Read a block as a directory-entry array. -/
def BlockData.asDir : BlockData → List Direntry
  | .dir l => l
  | .raw _ => List.replicate (OSPFS_BLKSIZE / OSPFS_DIRENTRY_SIZE) ⟨0, []⟩

/-- `ospfs_inode_t`. -/
structure OspfsInode where
  oi_size : Nat
  oi_ftype : Nat
  oi_nlink : Nat
  oi_mode : Nat
  oi_direct : List Nat
  oi_indirect : Nat
  oi_indirect2 : Nat
  deriving DecidableEq, Repr

def zeroInode : OspfsInode :=
  { oi_size := 0, oi_ftype := 0, oi_nlink := 0, oi_mode := 0,
    oi_direct := List.replicate OSPFS_NDIRECT 0,
    oi_indirect := 0, oi_indirect2 := 0 }

/-- `journal_header_t` (journal.h), plus the `dir_data_blockno` field the
CREATE/HARDLINK paths of ospfsmod.c store their directory-block
destination in. -/
structure JournalHeader where
  execute_type : Nat
  completed : Nat
  inode_num : Nat
  inode : OspfsInode
  n_blocks_affected : Nat
  indirect2_blockno : Nat
  indirect_blockno : Nat
  file_resize_type : Nat
  dir_data_blockno : Nat
  deriving DecidableEq, Repr

def zeroHeader : JournalHeader :=
  { execute_type := 0, completed := 0, inode_num := 0, inode := zeroInode,
    n_blocks_affected := 0, indirect2_blockno := 0, indirect_blockno := 0,
    file_resize_type := 0, dir_data_blockno := 0 }

/-- The journal region: header block, block-number list block, the two
saved chain blocks, and the data-copy blocks. -/
structure Journal where
  header : JournalHeader
  blocknos : List Nat
  indir2_block : List Nat
  indir_block : List Nat
  data_blocks : Nat → BlockData

/-- The file-system image: superblock fields, free-block bitmap, inode
table, journal region and block store.  `bitmap b = true` means block
`b` is free. -/
structure FS where
  nblocks : Nat
  ninodes : Nat
  firstdatab : Nat
  bitmap : Nat → Bool
  inodes : Nat → OspfsInode
  blocks : Nat → BlockData
  journal : Journal

/-! ## Helper functions (ospfsmod.c) -/

/-- `ospfs_size2nblocks`. -/
def ospfs_size2nblocks (size : Nat) : Nat :=
  (size + OSPFS_BLKSIZE - 1) / OSPFS_BLKSIZE

/-- `ospfs_inode_blockno`: translate a byte offset inside an inode to a
block number through the direct/indirect/doubly-indirect chain. -/
def ospfs_inode_blockno (fs : FS) (oi : OspfsInode) (offset : Nat) : Nat :=
  let blockno := offset / OSPFS_BLKSIZE
  if offset ≥ oi.oi_size ∨ oi.oi_ftype = OSPFS_FTYPE_SYMLINK then 0
  else if blockno ≥ OSPFS_NDIRECT + OSPFS_NINDIRECT then
    let blockoff := blockno - (OSPFS_NDIRECT + OSPFS_NINDIRECT)
    let indirect2_block := (fs.blocks oi.oi_indirect2).asRaw
    let indirect_block := (fs.blocks (indirect2_block.getD (blockoff / OSPFS_NINDIRECT) 0)).asRaw
    indirect_block.getD (blockoff % OSPFS_NINDIRECT) 0
  else if blockno ≥ OSPFS_NDIRECT then
    ((fs.blocks oi.oi_indirect).asRaw).getD (blockno - OSPFS_NDIRECT) 0
  else
    oi.oi_direct.getD blockno 0

/-! ## Free-block bitmap operations -/

def bitvector_set (v : Nat → Bool) (i : Nat) : Nat → Bool :=
  fun j => if j = i then true else v j

def bitvector_clear (v : Nat → Bool) (i : Nat) : Nat → Bool :=
  fun j => if j = i then false else v j

def bitvector_test (v : Nat → Bool) (i : Nat) : Bool := v i

/-- The scan loop of `find_free_block`, with explicit fuel.  The C loop
`while (blockno != lower) { if free return blockno; step }` terminates
within `nblocks + 1` tests whenever `lower < nblocks`, so that fuel
makes the model coincide with the source. -/
def find_free_aux (bm : Nat → Bool) (nblocks lower : Nat) : Nat → Nat → Nat
  | _, 0 => 0
  | blockno, fuel + 1 =>
    if blockno = lower then 0
    else if bitvector_test bm blockno then blockno
    else find_free_aux bm nblocks lower ((blockno + 1) % nblocks) fuel

/-- `find_free_block`: starting at `upper_bound`, scan upward modulo
`nblocks` until reaching `lower_bound`; first free block, or 0. -/
def find_free_block (fs : FS) (lower_bound upper_bound : Nat) : Nat :=
  find_free_aux fs.bitmap fs.nblocks lower_bound upper_bound (fs.nblocks + 1)

/-- `allocate_blockno`: clear the bit when `firstdatab < b < nblocks`
(note the strict lower comparison in the source). -/
def allocate_blockno (fs : FS) (blockno : Nat) : FS :=
  if fs.firstdatab < blockno ∧ blockno < fs.nblocks then
    { fs with bitmap := bitvector_clear fs.bitmap blockno }
  else fs

/-- `free_block`: return unless `firstdatab ≤ b ≤ nblocks` (note the
non-strict upper comparison in the source), else set the bit. -/
def free_block (fs : FS) (blockno : Nat) : FS :=
  if fs.nblocks < blockno ∨ blockno < fs.firstdatab then fs
  else { fs with bitmap := bitvector_set fs.bitmap blockno }

/-! ## File-index classification -/

/-- `block_indirect2_index`. -/
def block_indirect2_index (blockno : Nat) : Int :=
  if blockno < OSPFS_NDIRECT + OSPFS_NINDIRECT then -1 else 0

/-- `block_indirect_index`. -/
def block_indirect_index (blockno : Nat) : Int :=
  if blockno < OSPFS_NDIRECT then -1
  else if blockno - OSPFS_NDIRECT < OSPFS_NINDIRECT then 0
  else ((blockno - OSPFS_NDIRECT - OSPFS_NINDIRECT) / OSPFS_NINDIRECT : Nat)

/-- `block_direct_index`. -/
def block_direct_index (blockno : Nat) : Nat :=
  if blockno < OSPFS_NDIRECT then blockno
  else (blockno - OSPFS_NDIRECT) % OSPFS_NINDIRECT

/-- `file_index_t`. -/
structure FileIndex where
  blk_size : Nat
  indir2_idx : Int
  indir_idx : Int
  dir_idx : Nat
  deriving DecidableEq, Repr

/-- `init_file_index` (pure value; the C function fills a struct). -/
def init_file_index (oi : OspfsInode) : FileIndex :=
  let bs := ospfs_size2nblocks oi.oi_size
  { blk_size := bs,
    indir2_idx := block_indirect2_index bs,
    indir_idx := block_indirect_index bs,
    dir_idx := block_direct_index bs }

/-! ## Resize requests (journal.h `resize_request` + ospfsmod.c) -/

/-- `resize_request`, including the `lower_bound`/`upper_bound` scan
bounds the resize engine keeps (used by `init_resize_request`,
`update_bounds`, `add_block_file`). -/
structure ResizeRequest where
  index : FileIndex
  lower_bound : Nat
  upper_bound : Nat
  resize_type : Nat
  indirect_blockno : Nat
  indirect_block : List Nat
  indirect2_blockno : Nat
  indirect2_block : List Nat
  n : Nat
  blocknos : List Nat
  deriving DecidableEq, Repr

/-- `init_resize_request`: stage the scan bounds, load (or zero) the
current doubly-indirect and indirect block images, reset the affected
block list.  Note the source reads the indirect block number from
`indirect2_block[indir2_idx]` (index 0) in the doubly-indirect range. -/
def init_resize_request (fs : FS) (oi : OspfsInode) : ResizeRequest :=
  let idx := init_file_index oi
  let i2 :=
    if idx.indir2_idx = 0 then (oi.oi_indirect2, (fs.blocks oi.oi_indirect2).asRaw)
    else (0, List.replicate OSPFS_NINDIRECT 0)
  let i1 :=
    if idx.indir2_idx = 0 then
      let ib := i2.2.getD idx.indir2_idx.toNat 0
      (ib, (fs.blocks ib).asRaw)
    else if idx.indir2_idx < 0 ∧ idx.indir_idx = 0 then
      (oi.oi_indirect, (fs.blocks oi.oi_indirect).asRaw)
    else (0, List.replicate OSPFS_NINDIRECT 0)
  { index := idx,
    lower_bound := fs.firstdatab - 1,
    upper_bound := fs.firstdatab,
    resize_type := 0,
    indirect_blockno := i1.1,
    indirect_block := i1.2,
    indirect2_blockno := i2.1,
    indirect2_block := i2.2,
    n := 0,
    blocknos := List.replicate JOURNAL_MAX_BLOCKS 0 }

/-- `update_bounds`. -/
def update_bounds (r : ResizeRequest) (new_num : Nat) : ResizeRequest :=
  if r.n = 0 then
    { r with lower_bound := new_num, upper_bound := new_num + 1 }
  else
    { r with upper_bound := new_num + 1 }

/-- `free_block_file`: stage the removal of one block from the end of
the file.  The file index is recomputed from the current staged size;
the staged size then drops by one block. -/
def free_block_file (oi0 : OspfsInode) (r0 : ResizeRequest) :
    Int × OspfsInode × ResizeRequest :=
  let idx := init_file_index oi0
  let r := { r0 with index := idx }
  if idx.indir2_idx < 0 ∧ idx.indir_idx < 0 then
    let r := { r with
             blocknos := r.blocknos.set r.n (oi0.oi_direct.getD idx.dir_idx 0),
             n := r.n + 1 }
    let oi := { oi0 with oi_direct := oi0.oi_direct.set idx.dir_idx 0 }
    (0, { oi with oi_size := (idx.blk_size - 1) * OSPFS_BLKSIZE }, r)
  else
    let r := { r with
               blocknos := r.blocknos.set r.n (r.indirect_block.getD idx.dir_idx 0),
               n := r.n + 1 }
    let r := { r with indirect_block := r.indirect_block.set idx.dir_idx 0 }
    if idx.dir_idx = 0 then
      let p :=
        if idx.indir2_idx = 0 then
          (oi0, { r with indirect2_block := r.indirect2_block.set idx.indir_idx.toNat 0 })
        else ({ oi0 with oi_indirect := 0 }, r)
      let oi := p.1
      let r := { p.2 with resize_type := p.2.resize_type ||| JOURNAL_RESIZE_INDIRECT }
      let p2 :=
        if idx.indir2_idx = 0 ∧ idx.indir_idx = 0 then
          ({ oi with oi_indirect2 := 0 },
           { r with resize_type := r.resize_type ||| JOURNAL_RESIZE_INDIRECT2 })
        else (oi, r)
      (0, { p2.1 with oi_size := (idx.blk_size - 1) * OSPFS_BLKSIZE }, p2.2)
    else
      (0, { oi0 with oi_size := (idx.blk_size - 1) * OSPFS_BLKSIZE }, r)

/-- Tail of `add_block_file` (lines writing the data block number into
the direct or indirect slot, bumping `n` and the staged size). -/
def abf_tail (oi0 : OspfsInode) (r0 : ResizeRequest) (idx : FileIndex) (p : Nat) :
    Int × OspfsInode × ResizeRequest :=
  let st :=
    if idx.indir2_idx < 0 ∧ idx.indir_idx < 0 then
      ({ oi0 with oi_direct := oi0.oi_direct.set idx.dir_idx p }, r0)
    else
      (oi0, { r0 with indirect_block := r0.indirect_block.set idx.dir_idx p })
  let r := { st.2 with n := st.2.n + 1 }
  (0, { st.1 with oi_size := (idx.blk_size + 1) * OSPFS_BLKSIZE }, r)

/-- Indirect-block section of `add_block_file`: allocate an indirect
block at a chain boundary, abandoning the batch entry when it is not
the first of its batch. -/
def abf_indir (fs : FS) (oi0 : OspfsInode) (r0 : ResizeRequest) (idx : FileIndex) (p : Nat) :
    Int × OspfsInode × ResizeRequest :=
  if 0 ≤ idx.indir_idx ∧ idx.dir_idx = 0 then
    let r := { r0 with resize_type := r0.resize_type ||| JOURNAL_RESIZE_INDIRECT }
    if r.n ≠ 0 then
      (0, oi0, { r with blocknos := r.blocknos.set r.n 0 })
    else
      let q := find_free_block fs r.lower_bound r.upper_bound
      let r := { r with indirect_blockno := q }
      if q = 0 then (-enospc, oi0, r)
      else
        let r := update_bounds r q
        if idx.indir2_idx = 0 then
          abf_tail oi0 { r with indirect2_block := r.indirect2_block.set idx.indir_idx.toNat q } idx p
        else
          abf_tail { oi0 with oi_indirect := q } r idx p
  else abf_tail oi0 r0 idx p

/-- Doubly-indirect section of `add_block_file`, falling through to the
indirect section as the C code does. -/
def abf_indir2 (fs : FS) (oi0 : OspfsInode) (r0 : ResizeRequest) (idx : FileIndex) (p : Nat) :
    Int × OspfsInode × ResizeRequest :=
  if idx.indir2_idx = 0 ∧ idx.indir_idx = 0 ∧ idx.dir_idx = 0 then
    let r := { r0 with resize_type := r0.resize_type ||| JOURNAL_RESIZE_INDIRECT2 }
    if r.n ≠ 0 then
      (0, oi0, { r with blocknos := r.blocknos.set r.n 0 })
    else
      let q := find_free_block fs r.lower_bound r.upper_bound
      let r := { r with indirect2_blockno := q }
      if q = 0 then (-enospc, oi0, r)
      else
        let r := update_bounds r q
        abf_indir fs { oi0 with oi_indirect2 := q } r idx p
  else abf_indir fs oi0 r0 idx p

/-- `add_block_file`: stage the addition of one block to the file.
Picks a free data block with the running bounds, records it in the
affected list, then handles chain-boundary allocations. -/
def add_block_file (fs : FS) (oi0 : OspfsInode) (r0 : ResizeRequest) :
    Int × OspfsInode × ResizeRequest :=
  let idx := init_file_index oi0
  let r := { r0 with index := idx }
  let p := find_free_block fs r.lower_bound r.upper_bound
  let r := { r with blocknos := r.blocknos.set r.n p }
  if p = 0 then (-enospc, oi0, r)
  else abf_indir2 fs oi0 (update_bounds r p) idx p

/-! ## Journal encode / replay -/

/-- `change_size_to_journal`: serialize a resize request into the
journal region, then raise the `completed` commit flag. -/
def change_size_to_journal (header0 : JournalHeader) (r : ResizeRequest) (fs : FS) :
    JournalHeader × FS :=
  let header := { header0 with
    n_blocks_affected := r.n,
    indirect2_blockno := r.indirect2_blockno,
    indirect_blockno := r.indirect_blockno,
    file_resize_type := r.resize_type }
  let j := { fs.journal with header := header, blocknos := r.blocknos }
  let j := if r.indirect_blockno ≠ 0 then { j with indir_block := r.indirect_block } else j
  let j := if r.indirect2_blockno ≠ 0 then { j with indir2_block := r.indirect2_block } else j
  let j := { j with header := { j.header with completed := 1 } }
  (header, { fs with journal := j })

/-- `create_to_journal`: serialize a directory-block image into journal
data slot 0, then raise the `completed` commit flag. -/
def create_to_journal (header : JournalHeader) (direntries : List Direntry) (fs : FS) : FS :=
  let j := { fs.journal with
             header := header,
             data_blocks := fun i => if i = 0 then .dir direntries else fs.journal.data_blocks i }
  let j := { j with header := { j.header with completed := 1 } }
  { fs with journal := j }

/-- The data-block free loop of the FREE branch of `execute_journal`. -/
def free_listed_blocks (fs : FS) (blocknos : List Nat) (n : Nat) : FS :=
  (List.range n).foldl (fun acc i => free_block acc (blocknos.getD i 0)) fs

/-- The data-block allocate loop of the ALLOC branch of `execute_journal`. -/
def allocate_listed_blocks (fs : FS) (blocknos : List Nat) (n : Nat) : FS :=
  (List.range n).foldl (fun acc i => allocate_blockno acc (blocknos.getD i 0)) fs

/-- The WRITE replay loop of `execute_journal`: copy journal data slot
`i` into block `blocknos[i]` for each `i < n`. -/
def write_listed_blocks (fs : FS) (blocknos : List Nat) (n : Nat) : FS :=
  (List.range n).foldl
    (fun acc i =>
      { acc with blocks := fun b =>
          if b = blocknos.getD i 0 then acc.journal.data_blocks i else acc.blocks b })
    fs

/-- Store a raw image at a block number. -/
def store_raw (fs : FS) (blockno : Nat) (img : List Nat) : FS :=
  { fs with blocks := fun b => if b = blockno then .raw img else fs.blocks b }

/-- Store the inode carried in the journal header into the inode table. -/
def store_journal_inode (fs : FS) (h : JournalHeader) : FS :=
  { fs with inodes := fun i => if i = h.inode_num then h.inode else fs.inodes i }

/-- `execute_journal`: replay whatever the journal header describes,
then clear the header (`completed := 0`, `execute_type := EMPTY`).
The FREE and ALLOC branches mirror the source exactly: the bitmap
update for a touched indirect/doubly-indirect block and the copy-back
of its saved image are two independent `if`s, not an either/or. -/
def execute_journal (fs : FS) : FS :=
  let h := fs.journal.header
  let fs1 :=
    if h.execute_type = JOURNAL_FREE then
      let a := store_journal_inode fs h
      let a := if h.file_resize_type &&& JOURNAL_RESIZE_INDIRECT2 ≠ 0 then
                 free_block a h.indirect2_blockno else a
      let a := if h.indirect2_blockno ≠ 0 then
                 store_raw a h.indirect2_blockno fs.journal.indir2_block else a
      let a := if h.file_resize_type &&& JOURNAL_RESIZE_INDIRECT ≠ 0 then
                 free_block a h.indirect_blockno else a
      let a := if h.indirect_blockno ≠ 0 then
                 store_raw a h.indirect_blockno fs.journal.indir_block else a
      free_listed_blocks a fs.journal.blocknos h.n_blocks_affected
    else if h.execute_type = JOURNAL_ALLOC then
      let a := store_journal_inode fs h
      let a := allocate_listed_blocks a fs.journal.blocknos h.n_blocks_affected
      let a := if h.file_resize_type &&& JOURNAL_RESIZE_INDIRECT ≠ 0 then
                 allocate_blockno a h.indirect_blockno else a
      let a := if h.indirect_blockno ≠ 0 then
                 store_raw a h.indirect_blockno fs.journal.indir_block else a
      let a := if h.file_resize_type &&& JOURNAL_RESIZE_INDIRECT2 ≠ 0 then
                 allocate_blockno a h.indirect2_blockno else a
      if h.indirect2_blockno ≠ 0 then
        store_raw a h.indirect2_blockno fs.journal.indir2_block else a
    else if h.execute_type = JOURNAL_WRITE then
      write_listed_blocks fs fs.journal.blocknos h.n_blocks_affected
    else if h.execute_type = JOURNAL_HRDLNK ∨ h.execute_type = JOURNAL_CREATE then
      let a := store_journal_inode fs h
      { a with blocks := fun b =>
          if b = h.dir_data_blockno then fs.journal.data_blocks 0 else a.blocks b }
    else fs
  { fs1 with journal := { fs1.journal with header :=
      { fs1.journal.header with completed := 0, execute_type := JOURNAL_EMPTY } } }

/-! ## free_memory / grow_size / change_size -/

/-- Inner staging loop of `free_memory`: free blocks one at a time
until the batch is full, the target block count is reached, or a chain
boundary (`JOURNAL_RESIZE_INDIRECT`) is hit.  Each continuing iteration
increments `r.n`, so fuel `JOURNAL_MAX_BLOCKS + 1` makes the model
coincide with the bounded C loop. -/
def free_stage (desired : Nat) :
    Nat → OspfsInode → ResizeRequest → Int × OspfsInode × ResizeRequest
  | 0, oi, r => (0, oi, r)
  | fuel + 1, oi, r =>
    if r.n < JOURNAL_MAX_BLOCKS ∧ desired < ospfs_size2nblocks oi.oi_size then
      let t := free_block_file oi r
      if t.1 < 0 then t
      else if t.2.2.resize_type &&& JOURNAL_RESIZE_INDIRECT ≠ 0 then (0, t.2.1, t.2.2)
      else free_stage desired fuel t.2.1 t.2.2
    else (0, oi, r)

/-- Round loop of `free_memory`; one journal FREE transaction is
committed and replayed per round.  Each round lowers the staged block
count or exits, so the fuel passed by `free_memory` suffices. -/
def free_rounds (new_size desired : Nat) :
    Nat → JournalHeader → FS → Int × FS
  | 0, _, fs => (0, fs)
  | fuel + 1, header, fs =>
    if new_size < header.inode.oi_size then
      let r0 := init_resize_request fs header.inode
      let t := free_stage desired (JOURNAL_MAX_BLOCKS + 1) header.inode r0
      if t.1 < 0 then (t.1, fs)
      else
        let oi := t.2.1
        let r := t.2.2
        let p :=
          if oi.oi_size = 0 ∧ desired = 0 then
            ({ oi with oi_direct := oi.oi_direct.set 0 0 },
             { r with
               blocknos := r.blocknos.set r.n (oi.oi_direct.getD 0 0),
               n := r.n + 1 })
          else if ospfs_size2nblocks oi.oi_size ≤ desired then
            ({ oi with oi_size := new_size }, r)
          else (oi, r)
        let t2 := change_size_to_journal { header with inode := p.1 } p.2 fs
        let fs2 := execute_journal t2.2
        free_rounds new_size desired fuel t2.1 fs2
    else (0, fs)

/-- `free_memory`: shrink the file of `inode_num` to `new_size` in
journalled rounds. -/
def free_memory (fs : FS) (inode_num new_size : Nat) : Int × FS :=
  let oi := fs.inodes inode_num
  let header := { zeroHeader with
                  inode := oi, inode_num := inode_num, execute_type := JOURNAL_FREE }
  free_rounds new_size (ospfs_size2nblocks new_size)
    (ospfs_size2nblocks oi.oi_size + 2) header fs

/-- Inner staging loop of `grow_size`: add blocks one at a time until
the batch is full, the target block count is reached, or a chain
boundary (either resize flag) is hit. -/
def grow_stage (fs : FS) (desired : Nat) :
    Nat → OspfsInode → ResizeRequest → Int × OspfsInode × ResizeRequest
  | 0, oi, r => (0, oi, r)
  | fuel + 1, oi, r =>
    if r.n < JOURNAL_MAX_BLOCKS ∧ ospfs_size2nblocks oi.oi_size < desired then
      let t := add_block_file fs oi r
      if t.1 < 0 then t
      else if t.2.2.resize_type &&& JOURNAL_RESIZE_INDIRECT ≠ 0 ∨
              t.2.2.resize_type &&& JOURNAL_RESIZE_INDIRECT2 ≠ 0 then (0, t.2.1, t.2.2)
      else grow_stage fs desired fuel t.2.1 t.2.2
    else (0, oi, r)

/-- Round loop of `grow_size`; one journal ALLOC transaction is
committed and replayed per round.  A staging failure (`-ENOSPC`)
returns before anything is written to the journal. -/
def grow_rounds (new_size desired : Nat) :
    Nat → JournalHeader → FS → Int × FS
  | 0, _, fs => (0, fs)
  | fuel + 1, header, fs =>
    if header.inode.oi_size < new_size then
      let r0 := init_resize_request fs header.inode
      let t := grow_stage fs desired (JOURNAL_MAX_BLOCKS + 1) header.inode r0
      if t.1 < 0 then (t.1, fs)
      else
        let oi :=
          if desired ≤ ospfs_size2nblocks t.2.1.oi_size then
            { t.2.1 with oi_size := new_size }
          else t.2.1
        let t2 := change_size_to_journal { header with inode := oi } t.2.2 fs
        let fs2 := execute_journal t2.2
        grow_rounds new_size desired fuel t2.1 fs2
    else (0, fs)

/-- `grow_size`: grow the file of `inode_num` to `new_size` in
journalled rounds. -/
def grow_size (fs : FS) (inode_num new_size : Nat) : Int × FS :=
  let oi := fs.inodes inode_num
  let header := { zeroHeader with
                  inode := oi, inode_num := inode_num, execute_type := JOURNAL_ALLOC }
  grow_rounds new_size (ospfs_size2nblocks new_size)
    (ospfs_size2nblocks new_size + 2) header fs

/-- `change_size`: dispatch on the requested size. -/
def change_size (fs : FS) (inode_num new_size : Nat) : Int × FS :=
  let oi := fs.inodes inode_num
  if OSPFS_MAXFILESIZE < new_size then (-enospc, fs)
  else if new_size < oi.oi_size then free_memory fs inode_num new_size
  else if oi.oi_size < new_size then grow_size fs inode_num new_size
  else (0, fs)

/-! ## ospfs_read -/

/-- The state of `ospfs_read` at its `done:` label. -/
structure ReadState where
  fs : FS
  retval : Int
  amount : Nat
  fpos : Nat

/-- Copy loop of `ospfs_read`.  The outcome of the `copy_to_user`
primitive is an oracle indexed by the number of copy calls made so far
(`copyFails k = true` models a nonzero return from the k-th call).
Each continuing iteration moves at least one byte, so fuel `count + 1`
makes the model coincide with the C loop.  The block store is threaded
through unchanged: the source loop performs no store writes. -/
def read_loop (oi : OspfsInode) (copyFails : Nat → Bool) (count : Nat) :
    Nat → FS → Nat → Nat → Nat → ReadState
  | 0, fs, amount, fpos, _ => ⟨fs, 0, amount, fpos⟩
  | fuel + 1, fs, amount, fpos, k =>
    if amount < count then
      let blockno := ospfs_inode_blockno fs oi fpos
      if blockno = 0 then ⟨fs, -eio, amount, fpos⟩
      else
        let n := min (OSPFS_BLKSIZE - fpos % OSPFS_BLKSIZE) (count - amount)
        if n = 0 then ⟨fs, 0, amount, fpos⟩
        else if copyFails k then ⟨fs, -efault, amount, fpos⟩
        else read_loop oi copyFails count fuel fs (amount + n) (fpos + n) (k + 1)
    else ⟨fs, 0, amount, fpos⟩

/-- `ospfs_read` up to its `done:` label: clamp the count to the end of
the file, then copy block by block. -/
def ospfs_read (fs : FS) (ino : Nat) (copyFails : Nat → Bool) (count fpos : Nat) :
    ReadState :=
  let oi := fs.inodes ino
  if oi.oi_size ≤ fpos then ⟨fs, 0, 0, fpos⟩
  else
    let c := if oi.oi_size < fpos + count then oi.oi_size - fpos else count
    read_loop oi copyFails c (c + 1) fs 0 fpos 0

/-- The value `ospfs_read` returns: `retval >= 0 ? amount : retval`. -/
def ospfs_read_return (fs : FS) (ino : Nat) (copyFails : Nat → Bool) (count fpos : Nat) :
    Int :=
  let s := ospfs_read fs ino copyFails count fpos
  if 0 ≤ s.retval then (s.amount : Int) else s.retval

/-! ## Directory operations, create, symlink -/

def nullChar : Char := Char.ofNat 0

/-- C `strlen` on a stored name array: bytes before the first null. -/
def cstrlen (l : List Char) : Nat := (l.takeWhile (fun c => c != nullChar)).length

/-- The directory entry a byte offset inside a directory denotes. -/
def direntry_at (fs : FS) (dir_oi : OspfsInode) (off : Nat) : Direntry :=
  ((fs.blocks (ospfs_inode_blockno fs dir_oi off)).asDir).getD
    ((off % OSPFS_BLKSIZE) / OSPFS_DIRENTRY_SIZE) ⟨0, []⟩

/-- `find_direntry`: scan the directory at `OSPFS_DIRENTRY_SIZE` stride
for a live entry (`od_ino ≠ 0`) whose name has the right `strlen` and
bytes (`memcmp`). -/
def find_direntry (fs : FS) (dir_oi : OspfsInode) (name : List Char) : Option Direntry :=
  ((List.range ((dir_oi.oi_size + OSPFS_DIRENTRY_SIZE - 1) / OSPFS_DIRENTRY_SIZE))).findSome?
    (fun k =>
      let od := direntry_at fs dir_oi (k * OSPFS_DIRENTRY_SIZE)
      if od.od_ino ≠ 0 ∧ cstrlen od.od_name = name.length ∧
         od.od_name.take name.length = name
      then some od else none)

/-- The scan part of `find_blank_direntry`: first `(block index within
the directory, entry index within the block)` whose entry is blank. -/
def find_blank_scan (fs : FS) (dir_oi : OspfsInode) : Option (Nat × Nat) :=
  (List.range (ospfs_size2nblocks dir_oi.oi_size)).findSome? (fun blockno =>
    let dl := (fs.blocks (ospfs_inode_blockno fs dir_oi (blockno * OSPFS_BLKSIZE))).asDir
    (List.range (OSPFS_BLKSIZE / OSPFS_DIRENTRY_SIZE)).findSome? (fun dn =>
      if (dl.getD dn ⟨0, []⟩).od_ino = 0 then some (blockno, dn) else none))

/-- `find_blank_direntry`: return a blank slot, appending one block to
the directory via `change_size` when none exists.  In the append path
the source clears the block found at byte offset
`size2nblocks(new size) * BLKSIZE` — one block past the end, for which
`ospfs_inode_blockno` yields 0. -/
def find_blank_direntry (fs : FS) (dir_ino : Nat) : Int × Nat × FS :=
  let dir_oi := fs.inodes dir_ino
  match find_blank_scan fs dir_oi with
  | some (blockno, off) => ((blockno : Int), off, fs)
  | none =>
    let t := change_size fs dir_ino (dir_oi.oi_size + OSPFS_BLKSIZE)
    if t.1 < 0 then (-enospc, 0, t.2)
    else
      let fs1 := t.2
      let dir_oi1 := fs1.inodes dir_ino
      let target := ospfs_inode_blockno fs1 dir_oi1
        (ospfs_size2nblocks dir_oi1.oi_size * OSPFS_BLKSIZE)
      let blank := BlockData.dir
        (List.replicate (OSPFS_BLKSIZE / OSPFS_DIRENTRY_SIZE) ⟨0, []⟩)
      let fs2 := { fs1 with blocks := fun b => if b = target then blank else fs1.blocks b }
      ((ospfs_size2nblocks dir_oi1.oi_size - 1 : Nat), 0, fs2)

/-- The name-copy loop of `ospfs_create`: the name bytes followed by
null padding, `OSPFS_MAXNAMELEN + 1` bytes in all. -/
def pad_name (name : List Char) : List Char :=
  (List.range (OSPFS_MAXNAMELEN + 1)).map
    (fun i => if i < name.length then name.getD i nullChar else nullChar)

/-- The free-inode scan of `ospfs_create`: first slot with `nlink == 0`. -/
def find_free_inode (fs : FS) : Option Nat :=
  (List.range fs.ninodes).find? (fun i => (fs.inodes i).oi_nlink == 0)

/-- `ospfs_create`: create a regular file named `name` in directory
`dir_ino` through a CREATE journal transaction.  Of note: the source
never calls `find_direntry` here — there is no name-exists (`EEXIST`)
check on this path, although the function's own comment block demands
one.  (The source also stores the `find_blank_direntry` result in a
`uint32_t`, so its `< 0` error check cannot fire; the model keeps the
check on the signed value, which is unreachable in the committed-path
uses below.) -/
def ospfs_create (fs : FS) (dir_ino : Nat) (name : List Char) (mode : Nat) : Int × FS :=
  let t := find_blank_direntry fs dir_ino
  if t.1 < 0 then (t.1, t.2.2)
  else
    let fs1 := t.2.2
    let off := t.2.1
    let pos := t.1.toNat
    let dir_oi := fs1.inodes dir_ino
    let dirblk := ospfs_inode_blockno fs1 dir_oi (pos * OSPFS_BLKSIZE)
    match find_free_inode fs1 with
    | none => (-enospc, fs1)
    | some entry_ino =>
      let header := { zeroHeader with
                      execute_type := JOURNAL_CREATE,
                      dir_data_blockno := dirblk,
                      inode_num := entry_ino,
                      inode := { zeroInode with
                                 oi_nlink := 1, oi_size := 0,
                                 oi_ftype := OSPFS_FTYPE_REG, oi_mode := mode } }
      let direntries0 := (List.range (OSPFS_BLKSIZE / OSPFS_DIRENTRY_SIZE)).map
        (fun i => ((fs1.blocks dirblk).asDir).getD i ⟨0, []⟩)
      let direntries := direntries0.set off ⟨entry_ino, pad_name name⟩
      let fs2 := create_to_journal header direntries fs1
      (0, execute_journal fs2)

/-! ## Symbolic links -/

def rootTag : List Char := "root?".toList

/-- The target-storing step of `ospfs_symlink` (after `strcpy`): when
the target starts with `root?`, scan for the first `:` and overwrite it
with a null byte; if no `:` exists the source reports
`-ENAMETOOLONG`. -/
def ospfs_symlink_store (symname : List Char) : Int × List Char :=
  if symname.take 5 = rootTag then
    let i := symname.findIdx (fun c => c == ':')
    if i = symname.length then (-enametoolong, symname)
    else (0, symname.set i nullChar)
  else (0, symname)

/-- Read a returned `char *` as the C string it denotes. -/
def cstring (l : List Char) : List Char := l.takeWhile (fun c => c != nullChar)

/-- `ospfs_follow_link`: return the stored target; for a `root?` target
return the bytes at offset 5 when the effective uid is 0, and the bytes
after the first internal null otherwise. -/
def ospfs_follow_link (stored : List Char) (euid : Nat) : List Char :=
  if stored.take 5 = rootTag then
    if euid = 0 then cstring (stored.drop 5)
    else cstring (((stored.drop 5).dropWhile (fun c => c != nullChar)).drop 1)
  else cstring stored

/-! ## Claim-level definitions -/

/-- Number of non-zero entries of a pointer array. -/
def count_nonzero (l : List Nat) : Nat := (l.filter (fun x => x != 0)).length

/-- Number of non-zero data blocks reachable through an inode's
direct/indirect/doubly-indirect chain (the indirect blocks themselves
are not counted, matching §8 S1 of the spec). -/
def reachable_count (fs : FS) (oi : OspfsInode) : Nat :=
  count_nonzero oi.oi_direct +
  (if oi.oi_indirect ≠ 0 then count_nonzero (fs.blocks oi.oi_indirect).asRaw else 0) +
  (if oi.oi_indirect2 ≠ 0 then
     (((fs.blocks oi.oi_indirect2).asRaw).map
       (fun e => if e ≠ 0 then count_nonzero (fs.blocks e).asRaw else 0)).sum
   else 0)

/-- Live directory entries carrying exactly the (padded) name. -/
def live_name_count (l : List Direntry) (name : List Char) : Nat :=
  (l.filter (fun od => od.od_ino != 0 && od.od_name == pad_name name)).length

/-! ## Concrete images used by the counterexamples and witnesses -/

def zeroJournal : Journal :=
  { header := zeroHeader,
    blocknos := List.replicate JOURNAL_MAX_BLOCKS 0,
    indir2_block := List.replicate OSPFS_NINDIRECT 0,
    indir_block := List.replicate OSPFS_NINDIRECT 0,
    data_blocks := fun _ => .raw (List.replicate OSPFS_NINDIRECT 0) }

/-- A 30-block image whose inode 1 is a two-block regular file with
data blocks 14 and 15; blocks 16..29 are free. -/
def fsShrink : FS :=
  { nblocks := 30, ninodes := 4, firstdatab := 10,
    bitmap := fun b => decide (16 ≤ b) && decide (b < 30),
    inodes := fun i =>
      if i = 1 then
        { oi_size := 2048, oi_ftype := OSPFS_FTYPE_REG, oi_nlink := 1, oi_mode := 420,
          oi_direct := [14, 15, 0, 0, 0, 0, 0, 0, 0, 0],
          oi_indirect := 0, oi_indirect2 := 0 }
      else zeroInode,
    blocks := fun _ => .raw (List.replicate OSPFS_NINDIRECT 0),
    journal := zeroJournal }

/-- A 16-block image with no free block at all; inode 1 is an empty
regular file. -/
def fsFull : FS :=
  { nblocks := 16, ninodes := 4, firstdatab := 8,
    bitmap := fun _ => false,
    inodes := fun i =>
      if i = 1 then { zeroInode with oi_ftype := OSPFS_FTYPE_REG, oi_nlink := 1 }
      else zeroInode,
    blocks := fun _ => .raw (List.replicate OSPFS_NINDIRECT 0),
    journal := zeroJournal }

/-- An image holding a committed FREE journal record whose
`INDIRECT2_TOUCHED` and `INDIRECT_TOUCHED` flags are both set, with
`indirect2_blockno = 12` and `indirect_blockno = 11`; the saved
doubly-indirect image (all 7) differs from the live content of block
12 (all 9), and the saved indirect image is all 8. -/
def fsFreeRec : FS :=
  { nblocks := 30, ninodes := 4, firstdatab := 10,
    bitmap := fun _ => false,
    inodes := fun _ => zeroInode,
    blocks := fun b =>
      if b = 12 then .raw (List.replicate OSPFS_NINDIRECT 9)
      else .raw (List.replicate OSPFS_NINDIRECT 0),
    journal := { zeroJournal with
                 header := { zeroHeader with
                             execute_type := JOURNAL_FREE, completed := 1, inode_num := 1,
                             indirect2_blockno := 12, indirect_blockno := 11,
                             file_resize_type :=
                               JOURNAL_RESIZE_INDIRECT ||| JOURNAL_RESIZE_INDIRECT2 },
                 indir2_block := List.replicate OSPFS_NINDIRECT 7,
                 indir_block := List.replicate OSPFS_NINDIRECT 8 } }

/-- A small image for the bitmap-boundary facts: `firstdatab = 5`,
`nblocks = 8`, blocks 5 and 6 free. -/
def fsBit : FS :=
  { nblocks := 8, ninodes := 1, firstdatab := 5,
    bitmap := fun b => b == 5 || b == 6,
    inodes := fun _ => zeroInode,
    blocks := fun _ => .raw (List.replicate OSPFS_NINDIRECT 0),
    journal := zeroJournal }

/-- Copy oracle failing exactly on the second `copy_to_user` call. -/
def failSecond : Nat → Bool := fun k => k == 1

def nameA : List Char := ['a']

/-- A directory image: inode 1 is a one-block directory stored in block
12, whose entry 0 is a live file named `a` (inode 2) and whose entry 1
is blank; inode 3 is the first free inode slot. -/
def fsDir : FS :=
  { nblocks := 30, ninodes := 8, firstdatab := 10,
    bitmap := fun b => decide (16 ≤ b) && decide (b < 30),
    inodes := fun i =>
      if i = 0 then { zeroInode with oi_nlink := 1 }
      else if i = 1 then
        { oi_size := 1024, oi_ftype := OSPFS_FTYPE_DIR, oi_nlink := 1, oi_mode := 493,
          oi_direct := [12, 0, 0, 0, 0, 0, 0, 0, 0, 0],
          oi_indirect := 0, oi_indirect2 := 0 }
      else if i = 2 then { zeroInode with oi_ftype := OSPFS_FTYPE_REG, oi_nlink := 1 }
      else zeroInode,
    blocks := fun b =>
      if b = 12 then
        .dir (⟨2, pad_name nameA⟩ :: List.replicate 31 ⟨0, pad_name []⟩)
      else .raw (List.replicate OSPFS_NINDIRECT 0),
    journal := zeroJournal }

/-- Invariant of a grow-round resize request: the scan bounds bracket
all picks so far, nothing is free below `lower_bound` (and, before the
first pick, below `upper_bound`), and the picks recorded in
`blocknos[0..n)` are strictly increasing and below `upper_bound`. -/
def ReqInv (fs : FS) (r : ResizeRequest) : Prop :=
  r.blocknos.length = JOURNAL_MAX_BLOCKS ∧
  1 ≤ r.lower_bound ∧
  r.lower_bound ≤ r.upper_bound ∧
  r.upper_bound ≤ fs.nblocks ∧
  r.lower_bound < fs.nblocks ∧
  (∀ b, b < r.lower_bound → fs.bitmap b = false) ∧
  List.Pairwise (· < ·) (r.blocknos.take r.n) ∧
  (∀ x ∈ r.blocknos.take r.n, x < r.upper_bound) ∧
  (r.n = 0 → ∀ b, b < r.upper_bound → fs.bitmap b = false)

/-! ## Theorems -/

set_option maxRecDepth 100000

/-- C9: after every `execute_journal` return, regardless of the op
kind the header held, the journal header has `completed = 0` and
`execute_type = EMPTY`: no operation leaves a committed-but-uncleared
journal behind on normal return. -/
theorem execute_journal_clears_header (fs : FS) :
    (execute_journal fs).journal.header.completed = 0 ∧
    (execute_journal fs).journal.header.execute_type = JOURNAL_EMPTY :=
  ⟨rfl, rfl⟩

/-- C5 counterexample: at `b = firstdatab` (which the claim says is
allocated) `allocate_blockno` leaves the free bit set, and at
`b = nblocks` (which the claim says is ignored) `free_block` sets the
bit. -/
theorem bitmap_mark_range_cx :
    (fsBit.firstdatab ≤ 5 ∧ 5 < fsBit.nblocks ∧ fsBit.bitmap 5 = true ∧
      (allocate_blockno fsBit 5).bitmap 5 = true) ∧
    (fsBit.nblocks = 8 ∧ fsBit.bitmap 8 = false ∧ (free_block fsBit 8).bitmap 8 = true) := by
  decide

/-- C5 amended: `allocate_blockno` clears the bit exactly when
`firstdatab < b < nblocks` (strict at the lower end), and `free_block`
sets the bit exactly when `firstdatab ≤ b ≤ nblocks` (non-strict at the
upper end); outside those ranges each is the identity. -/
theorem bitmap_mark_range (fs : FS) (b : Nat) :
    (fs.firstdatab < b ∧ b < fs.nblocks →
      (allocate_blockno fs b).bitmap b = false ∧
      ∀ j, j ≠ b → (allocate_blockno fs b).bitmap j = fs.bitmap j) ∧
    (¬(fs.firstdatab < b ∧ b < fs.nblocks) → allocate_blockno fs b = fs) ∧
    (fs.firstdatab ≤ b ∧ b ≤ fs.nblocks →
      (free_block fs b).bitmap b = true ∧
      ∀ j, j ≠ b → (free_block fs b).bitmap j = fs.bitmap j) ∧
    (fs.nblocks < b ∨ b < fs.firstdatab → free_block fs b = fs) := by
  refine ⟨fun h => ?_, fun h => ?_, fun h => ?_, fun h => ?_⟩
  · rw [allocate_blockno, if_pos h]
    exact ⟨by simp [bitvector_clear], fun j hj => by simp [bitvector_clear, hj]⟩
  · rw [allocate_blockno, if_neg h]
  · have hg : ¬(fs.nblocks < b ∨ b < fs.firstdatab) := by omega
    rw [free_block, if_neg hg]
    exact ⟨by simp [bitvector_set], fun j hj => by simp [bitvector_set, hj]⟩
  · rw [free_block, if_pos h]

/-- C5 witness: the amended ranges at work on a concrete image. -/
theorem bitmap_mark_range_witness :
    (fsBit.firstdatab < 6 ∧ 6 < fsBit.nblocks) ∧
    (allocate_blockno fsBit 6).bitmap 6 = false ∧
    free_block fsBit 3 = fsBit :=
  ⟨by decide, ((bitmap_mark_range fsBit 6).1 (by decide)).1,
    (bitmap_mark_range fsBit 3).2.2.2 (by decide)⟩

/-- C1 evaluation at the failing input: shrinking the two-block file of
`fsShrink` to 1024 bytes returns 0 and sets the size to 1024, yet two
non-zero data blocks remain reachable (`ceil(1024/1024) = 1` expected)
and block 15 is never freed in the bitmap. -/
theorem change_size_shrink_nonzero_bug :
    (change_size fsShrink 1 1024).1 = 0 ∧
    ((change_size fsShrink 1 1024).2.inodes 1).oi_size = 1024 ∧
    ospfs_size2nblocks 1024 = 1 ∧
    reachable_count (change_size fsShrink 1 1024).2
      ((change_size fsShrink 1 1024).2.inodes 1) = 2 ∧
    (change_size fsShrink 1 1024).2.bitmap 15 = false := by
  decide

/-- C3 counterexample: the FREE transaction committed while shrinking
the two-block file of `fsShrink` to size 0 lists `[0, 15, 14]` — not a
strictly increasing sequence. -/
theorem free_journal_list_not_increasing :
    (change_size fsShrink 1 0).1 = 0 ∧
    (change_size fsShrink 1 0).2.journal.header.n_blocks_affected = 3 ∧
    (change_size fsShrink 1 0).2.journal.blocknos.take 3 = [0, 15, 14] ∧
    ¬ List.Pairwise (· < ·) ((change_size fsShrink 1 0).2.journal.blocknos.take 3) := by
  decide

/-- C7 evaluation at the failing input: the directory of `fsDir`
already holds a live entry named `a`, yet `ospfs_create` returns 0,
commits a CREATE journal transaction, allocates inode 3, and leaves the
directory block with two live entries of that name. -/
theorem ospfs_create_no_eexist_bug :
    (find_direntry fsDir (fsDir.inodes 1) nameA).isSome = true ∧
    (ospfs_create fsDir 1 nameA 420).1 = 0 ∧
    live_name_count (((ospfs_create fsDir 1 nameA 420).2.blocks 12).asDir) nameA = 2 ∧
    ((ospfs_create fsDir 1 nameA 420).2.inodes 3).oi_nlink = 1 := by
  decide

/-- C6 counterexample: reading 2048 bytes of `fsShrink`'s file with the
copy primitive failing on the second block copies 1024 bytes and then
returns `-EFAULT`, not the partial count 1024. -/
theorem ospfs_read_partial_copy_fail_cx :
    ospfs_read_return fsShrink 1 failSecond 2048 0 = -efault ∧
    (ospfs_read fsShrink 1 failSecond 2048 0).amount = 1024 ∧
    (ospfs_read fsShrink 1 failSecond 2048 0).fpos = 1024 ∧
    ospfs_read_return fsShrink 1 failSecond 2048 0 ≠ 1024 := by
  decide

/-- C4 counterexample: replaying the committed FREE record of
`fsFreeRec`, whose `INDIRECT2_TOUCHED` flag is set and whose
`indirect2_blockno` is 12, both marks block 12 free and copies the
saved image into it (the claim predicts the copy is skipped when the
flag is set). -/
theorem execute_free_both_actions_cx :
    fsFreeRec.journal.header.file_resize_type &&& JOURNAL_RESIZE_INDIRECT2 ≠ 0 ∧
    (execute_journal fsFreeRec).bitmap 12 = true ∧
    (execute_journal fsFreeRec).blocks 12 = .raw (List.replicate OSPFS_NINDIRECT 7) ∧
    fsFreeRec.blocks 12 = .raw (List.replicate OSPFS_NINDIRECT 9) := by
  decide

/-- The read loop never writes the block store: the threaded image
comes back unchanged. -/
theorem read_loop_fs_eq (oi : OspfsInode) (copyFails : Nat → Bool) (count : Nat) :
    ∀ fuel fs amount fpos k,
      (read_loop oi copyFails count fuel fs amount fpos k).fs = fs := by
  intro fuel
  induction fuel with
  | zero => intro fs amount fpos k; rfl
  | succ n ih =>
    intro fs amount fpos k
    simp only [read_loop]
    split_ifs with h1 h2 h3 h4 <;> simp [ih]

/-- C10: `ospfs_read` never mutates the file-system image — whatever
the inode, oracle, count and position, and whether the call succeeds,
returns 0 bytes or fails, the block store, bitmap, inode table and
journal are returned exactly as given. -/
theorem ospfs_read_frame (fs : FS) (ino : Nat) (copyFails : Nat → Bool) (count fpos : Nat) :
    (ospfs_read fs ino copyFails count fpos).fs = fs := by
  simp only [ospfs_read]
  split_ifs <;> first | rfl | exact read_loop_fs_eq ..

/-- Outcome analysis of the read loop: `-EFAULT` (only after a failing
copy), `-EIO`, or completion with exactly `count` bytes moved. -/
theorem read_loop_outcome (oi : OspfsInode) (copyFails : Nat → Bool) (count : Nat) :
    ∀ fuel amount fpos k fs, amount ≤ count → count ≤ amount + fuel →
      ((read_loop oi copyFails count fuel fs amount fpos k).retval = -efault ∧
        ∃ j, copyFails j = true) ∨
      (read_loop oi copyFails count fuel fs amount fpos k).retval = -eio ∨
      ((read_loop oi copyFails count fuel fs amount fpos k).retval = 0 ∧
        (read_loop oi copyFails count fuel fs amount fpos k).amount = count) := by
  intro fuel
  induction fuel with
  | zero =>
    intro amount fpos k fs h1 h2
    right; right
    have : amount = count := by omega
    simp [read_loop, this]
  | succ n ih =>
    intro amount fpos k fs h1 h2
    by_cases hlt : amount < count
    · simp only [read_loop, if_pos hlt]
      by_cases hb : ospfs_inode_blockno fs oi fpos = 0
      · right; left; simp [hb]
      · rw [if_neg hb]
        have hn0 : ¬ min (OSPFS_BLKSIZE - fpos % OSPFS_BLKSIZE) (count - amount) = 0 := by
          have hm : fpos % OSPFS_BLKSIZE < OSPFS_BLKSIZE := Nat.mod_lt _ (by decide)
          omega
        rw [if_neg hn0]
        by_cases hc : copyFails k
        · left; exact ⟨by simp [hc], k, hc⟩
        · rw [if_neg (by simp [hc])]
          refine ih _ _ _ _ ?_ ?_
          · have := Nat.min_le_right (OSPFS_BLKSIZE - fpos % OSPFS_BLKSIZE) (count - amount)
            omega
          · have hm : fpos % OSPFS_BLKSIZE < OSPFS_BLKSIZE := Nat.mod_lt _ (by decide)
            omega
    · right; right
      have : amount = count := by omega
      simp [read_loop, if_neg hlt, this]

/-- C6 amended: `ospfs_read` clamps the requested count to
`size - pos`, and its return value is always either that clamped count,
or `-EIO`, or `-EFAULT` — the latter only when some `copy_to_user` call
failed; a partway copy failure therefore yields `-EFAULT`, not the
partial byte count (see the counterexample for a failing run). -/
theorem ospfs_read_clamp_or_fault (fs : FS) (ino : Nat) (copyFails : Nat → Bool)
    (count fpos : Nat) :
    (ospfs_read_return fs ino copyFails count fpos = -efault ∧
      ∃ j, copyFails j = true) ∨
    ospfs_read_return fs ino copyFails count fpos = -eio ∨
    ospfs_read_return fs ino copyFails count fpos =
      ((if (fs.inodes ino).oi_size ≤ fpos then 0
        else min count ((fs.inodes ino).oi_size - fpos) : Nat) : Int) := by
  simp only [ospfs_read_return, ospfs_read]
  by_cases h : (fs.inodes ino).oi_size ≤ fpos
  · right; right; simp [h]
  · rw [if_neg h]
    have hcl :
        (if (fs.inodes ino).oi_size < fpos + count
         then (fs.inodes ino).oi_size - fpos else count) =
        min count ((fs.inodes ino).oi_size - fpos) := by
      split_ifs with h2 <;> omega
    rcases read_loop_outcome (fs.inodes ino) copyFails
        (if (fs.inodes ino).oi_size < fpos + count
         then (fs.inodes ino).oi_size - fpos else count)
        ((if (fs.inodes ino).oi_size < fpos + count
          then (fs.inodes ino).oi_size - fpos else count) + 1)
        0 fpos 0 fs (Nat.zero_le _) (by omega) with hca | hca | hca
    · left
      refine ⟨?_, hca.2⟩
      rw [hca.1, if_neg (by decide)]
    · right; left
      rw [hca, if_neg (by decide)]
    · right; right
      rw [hca.1, if_pos (by omega), hca.2, hcl]
      simp [h]

/-- `findIdx` skips a prefix on which the predicate is false. -/
theorem list_findIdx_append {α : Type} (p : α → Bool) :
    ∀ l1 l2 : List α, (∀ a ∈ l1, p a = false) →
      (l1 ++ l2).findIdx p = l1.length + l2.findIdx p := by
  intro l1
  induction l1 with
  | nil => intro l2 _; simp
  | cons a t ih =>
    intro l2 h
    have ha : p a = false := h a (by simp)
    rw [List.cons_append, List.findIdx_cons, ha]
    rw [ih l2 (fun x hx => h x (by simp [hx]))]
    simp; omega

/-- `set` past an untouched prefix. -/
theorem list_set_append {α : Type} (x : α) :
    ∀ (l1 l2 : List α) (n : Nat),
      (l1 ++ l2).set (l1.length + n) x = l1 ++ l2.set n x := by
  intro l1
  induction l1 with
  | nil => intro l2 n; simp
  | cons a t ih =>
    intro l2 n
    have harith : (a :: t).length + n = (t.length + n) + 1 := by simp; omega
    rw [List.cons_append, harith]
    simp only [List.set]
    rw [ih l2 n, List.cons_append]

/-- `takeWhile` stops exactly at the first failing element after an
all-passing prefix. -/
theorem list_takeWhile_append {α : Type} (p : α → Bool) :
    ∀ (l1 : List α) (x : α) (l2 : List α),
      (∀ a ∈ l1, p a = true) → p x = false →
      (l1 ++ x :: l2).takeWhile p = l1 := by
  intro l1
  induction l1 with
  | nil => intro x l2 _ hx; simp [List.takeWhile, hx]
  | cons a t ih =>
    intro x l2 h hx
    have ha : p a = true := h a (by simp)
    rw [List.cons_append]
    simp only [List.takeWhile, ha]
    rw [ih x l2 (fun b hb => h b (by simp [hb])) hx]

/-- `dropWhile` drops exactly the all-passing prefix. -/
theorem list_dropWhile_append {α : Type} (p : α → Bool) :
    ∀ (l1 : List α) (x : α) (l2 : List α),
      (∀ a ∈ l1, p a = true) → p x = false →
      (l1 ++ x :: l2).dropWhile p = x :: l2 := by
  intro l1
  induction l1 with
  | nil => intro x l2 _ hx; simp [List.dropWhile, hx]
  | cons a t ih =>
    intro x l2 h hx
    have ha : p a = true := h a (by simp)
    rw [List.cons_append]
    simp only [List.dropWhile, ha]
    exact ih x l2 (fun b hb => h b (by simp [hb])) hx

/-- C8: storing a symlink target `root?A:B` (no `:` in `A`, no null
bytes in `A` or `B`) replaces the first `:` by a null byte, and
`follow_link` then yields `A` for effective uid 0 and `B` for any
non-zero effective uid. -/
theorem symlink_root_conditional (A B : List Char) (u : Nat)
    (hA : ':' ∉ A) (hA0 : nullChar ∉ A) (hB0 : nullChar ∉ B) (hu : u ≠ 0) :
    ospfs_symlink_store (rootTag ++ A ++ ':' :: B) = (0, rootTag ++ A ++ nullChar :: B) ∧
    ospfs_follow_link (rootTag ++ A ++ nullChar :: B) 0 = A ∧
    ospfs_follow_link (rootTag ++ A ++ nullChar :: B) u = B := by
  have htaglen : rootTag.length = 5 := by decide
  have htake : ∀ l : List Char, (rootTag ++ l).take 5 = rootTag := by
    intro l; rw [← htaglen]; exact List.take_left ..
  have hdrop : ∀ l : List Char, (rootTag ++ l).drop 5 = l := by
    intro l; rw [← htaglen]; exact List.drop_left ..
  have hAfalse : ∀ a ∈ A, (a == ':') = false := by
    intro a haA
    exact beq_eq_false_iff_ne.mpr (fun hc => hA (hc ▸ haA))
  have hA0true : ∀ a ∈ A, (a != nullChar) = true := by
    intro a haA
    exact bne_iff_ne.mpr (fun hc => hA0 (hc ▸ haA))
  have hB0true : ∀ a ∈ B, (a != nullChar) = true := by
    intro a haB
    exact bne_iff_ne.mpr (fun hc => hB0 (hc ▸ haB))
  have hassoc : rootTag ++ A ++ ':' :: B = rootTag ++ (A ++ ':' :: B) :=
    List.append_assoc ..
  have hassoc0 : rootTag ++ A ++ nullChar :: B = rootTag ++ (A ++ nullChar :: B) :=
    List.append_assoc ..
  have hidx : (rootTag ++ A ++ ':' :: B).findIdx (fun c => c == ':') =
      (rootTag ++ A).length := by
    rw [hassoc, list_findIdx_append _ rootTag _ (by decide),
        list_findIdx_append _ A _ hAfalse, List.findIdx_cons]
    simp [htaglen]
  refine ⟨?_, ?_, ?_⟩
  · rw [ospfs_symlink_store, if_pos (by rw [hassoc]; exact htake _), hidx]
    have hne : (rootTag ++ A).length ≠ (rootTag ++ A ++ ':' :: B).length := by
      simp
    rw [if_neg hne]
    have hset := list_set_append nullChar (rootTag ++ A) (':' :: B) 0
    rw [Nat.add_zero] at hset
    rw [hset]
    rfl
  · rw [ospfs_follow_link, if_pos (by rw [hassoc0]; exact htake _), if_pos rfl]
    rw [hassoc0, hdrop, cstring]
    exact list_takeWhile_append _ A nullChar B hA0true (by simp)
  · rw [ospfs_follow_link, if_pos (by rw [hassoc0]; exact htake _), if_neg hu]
    rw [hassoc0, hdrop]
    rw [list_dropWhile_append _ A nullChar B hA0true (by simp)]
    simp only [List.drop_succ_cons, List.drop_zero, cstring]
    exact List.takeWhile_eq_self_iff.mpr (fun x hx => hB0true x hx)

/-- C8 witness: the spec's S6 scenario `root?/x:/y`. -/
theorem symlink_root_conditional_witness :
    ospfs_symlink_store (rootTag ++ "/x".toList ++ ':' :: "/y".toList) =
      (0, rootTag ++ "/x".toList ++ nullChar :: "/y".toList) ∧
    ospfs_follow_link (rootTag ++ "/x".toList ++ nullChar :: "/y".toList) 0 = "/x".toList ∧
    ospfs_follow_link (rootTag ++ "/x".toList ++ nullChar :: "/y".toList) 1 = "/y".toList :=
  symlink_root_conditional "/x".toList "/y".toList 1
    (by decide) (by decide) (by decide) (by decide)

/-- C2: if the first round of a grow (`grow_stage` from the freshly
initialized request) fails with `-ENOSPC` — i.e. `find_free_block`
returned 0 before anything was written to the journal — then
`change_size` returns `-ENOSPC` and the entire image (inode table,
block chain, bitmap, journal) is returned unchanged. -/
theorem change_size_grow_enospc_frame (fs : FS) (ino new_size : Nat)
    (hmax : new_size ≤ OSPFS_MAXFILESIZE)
    (hgrow : (fs.inodes ino).oi_size < new_size)
    (hstage : (grow_stage fs (ospfs_size2nblocks new_size) (JOURNAL_MAX_BLOCKS + 1)
        (fs.inodes ino) (init_resize_request fs (fs.inodes ino))).1 = -enospc) :
    change_size fs ino new_size = (-enospc, fs) := by
  have h1 : ¬ OSPFS_MAXFILESIZE < new_size := by omega
  have h2 : ¬ new_size < (fs.inodes ino).oi_size := by omega
  simp only [change_size, if_neg h1, if_neg h2, if_pos hgrow, grow_size, grow_rounds]
  rw [hstage, if_pos (by decide : (-enospc : Int) < 0)]

/-- `free_block` only touches the bitmap. -/
theorem free_block_blocks_eq (fs : FS) (b : Nat) : (free_block fs b).blocks = fs.blocks := by
  rw [free_block]; split <;> rfl

theorem free_block_firstdatab_eq (fs : FS) (b : Nat) :
    (free_block fs b).firstdatab = fs.firstdatab := by
  rw [free_block]; split <;> rfl

theorem free_block_nblocks_eq (fs : FS) (b : Nat) :
    (free_block fs b).nblocks = fs.nblocks := by
  rw [free_block]; split <;> rfl

/-- `free_block` sets the bit inside the accepted range. -/
theorem free_block_sets_bit (fs : FS) (b : Nat)
    (hlo : fs.firstdatab ≤ b) (hhi : b ≤ fs.nblocks) :
    (free_block fs b).bitmap b = true := by
  rw [free_block, if_neg (by omega)]
  simp [bitvector_set]

/-- `free_block` never clears a set bit. -/
theorem free_block_bitmap_mono (fs : FS) (b x : Nat) (h : fs.bitmap x = true) :
    (free_block fs b).bitmap x = true := by
  rw [free_block]
  split_ifs with hg
  · exact h
  · simp only [bitvector_set]
    split_ifs <;> simp [h]

theorem free_listed_blocks_blocks_eq (l : List Nat) :
    ∀ (n : Nat) (fs : FS), (free_listed_blocks fs l n).blocks = fs.blocks := by
  intro n
  induction n with
  | zero => intro fs; rfl
  | succ n ih =>
    intro fs
    rw [free_listed_blocks, List.range_succ, List.foldl_append]
    rw [show (List.range n).foldl (fun acc i => free_block acc (l.getD i 0)) fs =
          free_listed_blocks fs l n from rfl]
    simp [free_block_blocks_eq, ih fs]

theorem free_listed_blocks_firstdatab_eq (l : List Nat) :
    ∀ (n : Nat) (fs : FS), (free_listed_blocks fs l n).firstdatab = fs.firstdatab := by
  intro n
  induction n with
  | zero => intro fs; rfl
  | succ n ih =>
    intro fs
    rw [free_listed_blocks, List.range_succ, List.foldl_append]
    rw [show (List.range n).foldl (fun acc i => free_block acc (l.getD i 0)) fs =
          free_listed_blocks fs l n from rfl]
    simp [free_block_firstdatab_eq, ih fs]

theorem free_listed_blocks_nblocks_eq (l : List Nat) :
    ∀ (n : Nat) (fs : FS), (free_listed_blocks fs l n).nblocks = fs.nblocks := by
  intro n
  induction n with
  | zero => intro fs; rfl
  | succ n ih =>
    intro fs
    rw [free_listed_blocks, List.range_succ, List.foldl_append]
    rw [show (List.range n).foldl (fun acc i => free_block acc (l.getD i 0)) fs =
          free_listed_blocks fs l n from rfl]
    simp [free_block_nblocks_eq, ih fs]

theorem free_listed_blocks_bitmap_mono (l : List Nat) :
    ∀ (n : Nat) (fs : FS) (x : Nat), fs.bitmap x = true →
      (free_listed_blocks fs l n).bitmap x = true := by
  intro n
  induction n with
  | zero => intro fs x h; exact h
  | succ n ih =>
    intro fs x h
    rw [free_listed_blocks, List.range_succ, List.foldl_append]
    rw [show (List.range n).foldl (fun acc i => free_block acc (l.getD i 0)) fs =
          free_listed_blocks fs l n from rfl]
    exact free_block_bitmap_mono _ _ _ (ih fs x h)

/-- Every listed block inside the accepted range ends up free. -/
theorem free_listed_blocks_sets (l : List Nat) :
    ∀ (n : Nat) (fs : FS) (i : Nat), i < n →
      fs.firstdatab ≤ l.getD i 0 → l.getD i 0 ≤ fs.nblocks →
      (free_listed_blocks fs l n).bitmap (l.getD i 0) = true := by
  intro n
  induction n with
  | zero => intro fs i h; omega
  | succ n ih =>
    intro fs i hi hlo hhi
    rw [free_listed_blocks, List.range_succ, List.foldl_append]
    rw [show (List.range n).foldl (fun acc i => free_block acc (l.getD i 0)) fs =
          free_listed_blocks fs l n from rfl]
    by_cases hin : i < n
    · exact free_block_bitmap_mono _ _ _ (ih fs i hin hlo hhi)
    · have : i = n := by omega
      subst this
      refine free_block_sets_bit _ _ ?_ ?_
      · rw [free_listed_blocks_firstdatab_eq]; exact hlo
      · rw [free_listed_blocks_nblocks_eq]; exact hhi

theorem store_raw_bitmap_eq (fs : FS) (b : Nat) (img : List Nat) :
    (store_raw fs b img).bitmap = fs.bitmap := rfl

theorem store_raw_blocks_self (fs : FS) (b : Nat) (img : List Nat) :
    (store_raw fs b img).blocks b = .raw img := by simp [store_raw]

theorem store_raw_blocks_ne (fs : FS) (b x : Nat) (img : List Nat) (h : x ≠ b) :
    (store_raw fs b img).blocks x = fs.blocks x := by simp [store_raw, h]

theorem ite_free_block_bitmap_mono (c : Prop) [Decidable c] (a : FS) (b x : Nat)
    (h : a.bitmap x = true) : (if c then free_block a b else a).bitmap x = true := by
  split_ifs with hc
  · exact free_block_bitmap_mono _ _ _ h
  · exact h

theorem ite_free_block_blocks_eq (c : Prop) [Decidable c] (a : FS) (b : Nat) :
    (if c then free_block a b else a).blocks = a.blocks := by
  split_ifs with hc
  · exact free_block_blocks_eq _ _
  · rfl

theorem ite_free_block_firstdatab_eq (c : Prop) [Decidable c] (a : FS) (b : Nat) :
    (if c then free_block a b else a).firstdatab = a.firstdatab := by
  split_ifs with hc
  · exact free_block_firstdatab_eq _ _
  · rfl

theorem ite_free_block_nblocks_eq (c : Prop) [Decidable c] (a : FS) (b : Nat) :
    (if c then free_block a b else a).nblocks = a.nblocks := by
  split_ifs with hc
  · exact free_block_nblocks_eq _ _
  · rfl

theorem ite_store_raw_bitmap_eq (c : Prop) [Decidable c] (a : FS) (b : Nat) (img : List Nat) :
    (if c then store_raw a b img else a).bitmap = a.bitmap := by
  split_ifs <;> rfl

theorem ite_store_raw_firstdatab_eq (c : Prop) [Decidable c] (a : FS) (b : Nat)
    (img : List Nat) : (if c then store_raw a b img else a).firstdatab = a.firstdatab := by
  split_ifs <;> rfl

theorem ite_store_raw_nblocks_eq (c : Prop) [Decidable c] (a : FS) (b : Nat)
    (img : List Nat) : (if c then store_raw a b img else a).nblocks = a.nblocks := by
  split_ifs <;> rfl

theorem ite_store_raw_blocks_ne (c : Prop) [Decidable c] (a : FS) (b x : Nat)
    (img : List Nat) (h : x ≠ b) :
    (if c then store_raw a b img else a).blocks x = a.blocks x := by
  split_ifs with hc
  · exact store_raw_blocks_ne _ _ _ _ h
  · rfl

/-- C4 amended: when a committed FREE record has `INDIRECT2_TOUCHED`
set and a non-zero `indirect2_blockno`, replay performs BOTH actions —
it marks the block free AND copies the saved doubly-indirect image into
it (the two `if`s of the source are independent, not an either/or); the
same holds for the indirect block under `INDIRECT_TOUCHED`; and every
listed data block inside the bitmap's accepted range is marked free. -/
theorem execute_free_touched_both (fs : FS)
    (hty : fs.journal.header.execute_type = JOURNAL_FREE)
    (hflag : fs.journal.header.file_resize_type &&& JOURNAL_RESIZE_INDIRECT2 ≠ 0)
    (hflag1 : fs.journal.header.file_resize_type &&& JOURNAL_RESIZE_INDIRECT ≠ 0)
    (hb2 : fs.journal.header.indirect2_blockno ≠ 0)
    (hb1 : fs.journal.header.indirect_blockno ≠ 0)
    (hneq : fs.journal.header.indirect_blockno ≠ fs.journal.header.indirect2_blockno)
    (hlo : fs.firstdatab ≤ fs.journal.header.indirect2_blockno)
    (hhi : fs.journal.header.indirect2_blockno ≤ fs.nblocks)
    (hlo1 : fs.firstdatab ≤ fs.journal.header.indirect_blockno)
    (hhi1 : fs.journal.header.indirect_blockno ≤ fs.nblocks) :
    (execute_journal fs).bitmap fs.journal.header.indirect2_blockno = true ∧
    (execute_journal fs).blocks fs.journal.header.indirect2_blockno =
      .raw fs.journal.indir2_block ∧
    (execute_journal fs).bitmap fs.journal.header.indirect_blockno = true ∧
    (execute_journal fs).blocks fs.journal.header.indirect_blockno =
      .raw fs.journal.indir_block ∧
    ∀ i, i < fs.journal.header.n_blocks_affected →
      fs.firstdatab ≤ fs.journal.blocknos.getD i 0 →
      fs.journal.blocknos.getD i 0 ≤ fs.nblocks →
      (execute_journal fs).bitmap (fs.journal.blocknos.getD i 0) = true := by
  simp only [execute_journal, hty, eq_self_iff_true, if_true]
  rw [if_pos hflag, if_pos hb2, if_pos hflag1, if_pos hb1]
  refine ⟨?_, ?_, ?_, ?_, ?_⟩
  · apply free_listed_blocks_bitmap_mono
    rw [store_raw_bitmap_eq]
    apply free_block_bitmap_mono
    rw [store_raw_bitmap_eq]
    exact free_block_sets_bit _ _ hlo hhi
  · rw [free_listed_blocks_blocks_eq]
    rw [store_raw_blocks_ne _ _ _ _ (Ne.symm hneq)]
    rw [free_block_blocks_eq]
    exact store_raw_blocks_self _ _ _
  · apply free_listed_blocks_bitmap_mono
    rw [store_raw_bitmap_eq]
    refine free_block_sets_bit _ _ ?_ ?_
    · simpa [store_raw, store_journal_inode, free_block_firstdatab_eq] using hlo1
    · simpa [store_raw, store_journal_inode, free_block_nblocks_eq] using hhi1
  · rw [free_listed_blocks_blocks_eq]
    exact store_raw_blocks_self _ _ _
  · intro i hi hilo hihi
    apply free_listed_blocks_sets
    · exact hi
    · simpa [store_raw, store_journal_inode, free_block_firstdatab_eq] using hilo
    · simpa [store_raw, store_journal_inode, free_block_nblocks_eq] using hihi

/-- C4 witness: the amended behaviour on the concrete committed FREE
record of `fsFreeRec`, whose flags mark both the doubly-indirect block
12 and the indirect block 11 as touched. -/
theorem execute_free_touched_both_witness :
    (execute_journal fsFreeRec).bitmap fsFreeRec.journal.header.indirect2_blockno = true ∧
    (execute_journal fsFreeRec).blocks fsFreeRec.journal.header.indirect2_blockno =
      .raw fsFreeRec.journal.indir2_block ∧
    (execute_journal fsFreeRec).bitmap fsFreeRec.journal.header.indirect_blockno = true ∧
    (execute_journal fsFreeRec).blocks fsFreeRec.journal.header.indirect_blockno =
      .raw fsFreeRec.journal.indir_block := by
  have h := execute_free_touched_both fsFreeRec (by decide) (by decide) (by decide)
    (by decide) (by decide) (by decide) (by decide) (by decide) (by decide) (by decide)
  exact ⟨h.1, h.2.1, h.2.2.1, h.2.2.2.1⟩

/-- C2 witness: on the completely full image `fsFull`, growing the
empty file by one block fails in the first round and leaves the image
untouched. -/
theorem change_size_grow_enospc_frame_witness :
    (fsFull.inodes 1).oi_size < 1024 ∧ change_size fsFull 1 1024 = (-enospc, fsFull) :=
  ⟨by decide, change_size_grow_enospc_frame fsFull 1 1024 (by decide) (by decide) (by decide)⟩

/-- Setting an element at index `n` does not change the first `n`
elements. -/
theorem list_take_set {α : Type} :
    ∀ (l : List α) (n : Nat) (x : α), (l.set n x).take n = l.take n := by
  intro l
  induction l with
  | nil => intro n x; simp
  | cons a t ih =>
    intro n x
    cases n with
    | zero => simp
    | succ n => simp only [List.set, List.take_succ_cons, ih t.length]; rw [ih]

/-- Taking one past a just-set index appends the new element. -/
theorem list_take_succ_set {α : Type} :
    ∀ (l : List α) (n : Nat) (x : α), n < l.length →
      (l.set n x).take (n + 1) = l.take n ++ [x] := by
  intro l
  induction l with
  | nil => intro n x h; simp at h
  | cons a t ih =>
    intro n x h
    cases n with
    | zero => simp
    | succ n =>
      simp only [List.set, List.take_succ_cons, List.cons_append]
      rw [ih n x (by simpa using h)]

/-- Appending one larger element to a strictly increasing list. -/
theorem pairwise_lt_snoc (l : List Nat) (p : Nat)
    (hPw : List.Pairwise (· < ·) l) (hlt : ∀ x ∈ l, x < p) :
    List.Pairwise (· < ·) (l ++ [p]) :=
  List.pairwise_append.mpr
    ⟨hPw, List.pairwise_singleton _ _,
      fun a ha _ hb => (List.mem_singleton.mp hb) ▸ hlt a ha⟩

/-- Scanning from any position at or below `lower_bound` over a bitmap
with no free block below `lower_bound` finds nothing. -/
theorem find_free_aux_below (bm : Nat → Bool) (nblocks lower : Nat)
    (Hres : ∀ b, b < lower → bm b = false) (hln : lower < nblocks) :
    ∀ fuel pos, pos ≤ lower → find_free_aux bm nblocks lower pos fuel = 0 := by
  intro fuel
  induction fuel with
  | zero => intro pos _; rfl
  | succ n ih =>
    intro pos hpos
    rw [find_free_aux]
    by_cases hpl : pos = lower
    · rw [if_pos hpl]
    · rw [if_neg hpl]
      have hplt : pos < lower := by omega
      rw [show bitvector_test bm pos = false from Hres pos hplt]
      rw [if_neg (by simp)]
      have hmod : (pos + 1) % nblocks = pos + 1 := Nat.mod_eq_of_lt (by omega)
      rw [hmod]
      exact ih (pos + 1) (by omega)

/-- Specification of the `find_free_block` scan: starting at `pos`
(with nothing free in `[upper, pos)`), over a bitmap with nothing free
below `lower_bound` or at/after `nblocks`, the result is either 0 or a
free block `≥ upper` below `nblocks` with nothing free in between. -/
theorem find_free_aux_spec (bm : Nat → Bool) (nblocks lower : Nat)
    (Hres : ∀ b, b < lower → bm b = false)
    (Hout : ∀ b, nblocks ≤ b → bm b = false)
    (hl : 1 ≤ lower) (hln : lower < nblocks) :
    ∀ fuel pos upper, upper ≤ pos → pos ≤ nblocks →
      (∀ b, upper ≤ b → b < pos → bm b = false) →
      find_free_aux bm nblocks lower pos fuel = 0 ∨
      (upper ≤ find_free_aux bm nblocks lower pos fuel ∧
       find_free_aux bm nblocks lower pos fuel < nblocks ∧
       bm (find_free_aux bm nblocks lower pos fuel) = true ∧
       ∀ b, upper ≤ b → b < find_free_aux bm nblocks lower pos fuel → bm b = false) := by
  intro fuel
  induction fuel with
  | zero => intro pos upper _ _ _; left; rfl
  | succ n ih =>
    intro pos upper hup hpn hscan
    rw [find_free_aux]
    by_cases hpl : pos = lower
    · rw [if_pos hpl]; left; rfl
    · rw [if_neg hpl]
      by_cases hfree : bitvector_test bm pos = true
      · rw [if_pos hfree]
        right
        have hpnb : pos < nblocks := by
          rcases Nat.lt_or_ge pos nblocks with h | h
          · exact h
          · exact absurd hfree (by simp [bitvector_test, Hout pos h])
        exact ⟨hup, hpnb, hfree, hscan⟩
      · rw [if_neg hfree]
        have hposf : bm pos = false := by
          simpa [bitvector_test] using hfree
        by_cases hwrap : pos + 1 < nblocks
        · have hmod : (pos + 1) % nblocks = pos + 1 := Nat.mod_eq_of_lt hwrap
          rw [hmod]
          refine ih (pos + 1) upper (by omega) (by omega) ?_
          intro b hbu hbp
          by_cases hbpos : b = pos
          · exact hbpos ▸ hposf
          · exact hscan b hbu (by omega)
        · -- the scan wraps around to a position at or below `lower_bound`
          have hmod : (pos + 1) % nblocks = pos + 1 - nblocks := by
            rw [Nat.mod_eq_sub_mod (by omega)]
            exact Nat.mod_eq_of_lt (by omega)
          rw [hmod]
          left
          exact find_free_aux_below bm nblocks lower Hres hln n _ (by omega)

/-- `find_free_block` under the reserved-region bitmap invariant:
either 0, or a free block in `[upper_bound, nblocks)` with nothing free
between `upper_bound` and it. -/
theorem find_free_block_spec (fs : FS) (lower upper : Nat)
    (Hres : ∀ b, b < lower → fs.bitmap b = false)
    (Hout : ∀ b, fs.nblocks ≤ b → fs.bitmap b = false)
    (hl : 1 ≤ lower) (hln : lower < fs.nblocks) (hun : upper ≤ fs.nblocks) :
    find_free_block fs lower upper = 0 ∨
    (upper ≤ find_free_block fs lower upper ∧
     find_free_block fs lower upper < fs.nblocks ∧
     fs.bitmap (find_free_block fs lower upper) = true ∧
     ∀ b, upper ≤ b → b < find_free_block fs lower upper → fs.bitmap b = false) :=
  find_free_aux_spec fs.bitmap fs.nblocks lower Hres Hout hl hln _ upper upper
    le_rfl hun (fun b h1 h2 => absurd h1 (by omega))

/-- The tail of `add_block_file` always succeeds. -/
theorem abf_tail_fst (oi : OspfsInode) (r : ResizeRequest) (idx : FileIndex) (p : Nat) :
    (abf_tail oi r idx p).1 = 0 := by
  simp only [abf_tail]

theorem abf_tail_blocknos (oi : OspfsInode) (r : ResizeRequest) (idx : FileIndex) (p : Nat) :
    (abf_tail oi r idx p).2.2.blocknos = r.blocknos := by
  simp only [abf_tail]
  split_ifs <;> rfl

theorem abf_tail_n (oi : OspfsInode) (r : ResizeRequest) (idx : FileIndex) (p : Nat) :
    (abf_tail oi r idx p).2.2.n = r.n + 1 := by
  simp only [abf_tail]
  split_ifs <;> rfl

theorem abf_tail_lower (oi : OspfsInode) (r : ResizeRequest) (idx : FileIndex) (p : Nat) :
    (abf_tail oi r idx p).2.2.lower_bound = r.lower_bound := by
  simp only [abf_tail]
  split_ifs <;> rfl

theorem abf_tail_upper (oi : OspfsInode) (r : ResizeRequest) (idx : FileIndex) (p : Nat) :
    (abf_tail oi r idx p).2.2.upper_bound = r.upper_bound := by
  simp only [abf_tail]
  split_ifs <;> rfl

theorem abf_tail_resize (oi : OspfsInode) (r : ResizeRequest) (idx : FileIndex) (p : Nat) :
    (abf_tail oi r idx p).2.2.resize_type = r.resize_type := by
  simp only [abf_tail]
  split_ifs <;> rfl

/-- `update_bounds` leaves the recorded picks alone. -/
theorem update_bounds_blocknos (r : ResizeRequest) (x : Nat) :
    (update_bounds r x).blocknos = r.blocknos := by
  simp only [update_bounds]
  split_ifs <;> rfl

theorem update_bounds_n (r : ResizeRequest) (x : Nat) :
    (update_bounds r x).n = r.n := by
  simp only [update_bounds]
  split_ifs <;> rfl

theorem update_bounds_resize (r : ResizeRequest) (x : Nat) :
    (update_bounds r x).resize_type = r.resize_type := by
  simp only [update_bounds]
  split_ifs <;> rfl

/-- How `update_bounds` moves the scan bounds. -/
theorem update_bounds_bounds (r : ResizeRequest) (x : Nat) :
    (r.n = 0 → (update_bounds r x).lower_bound = x ∧ (update_bounds r x).upper_bound = x + 1) ∧
    (r.n ≠ 0 → (update_bounds r x).lower_bound = r.lower_bound ∧
      (update_bounds r x).upper_bound = x + 1) := by
  constructor <;> intro h <;> simp [update_bounds, h]

/-- Outcome analysis of the indirect-boundary section of
`add_block_file`: on success, either no flag was set and exactly one
pick was recorded with the bounds untouched, or `INDIRECT` was flagged
and the staged slot was abandoned (`blocknos[n] := 0`, `n` unchanged)
or recorded. -/
theorem abf_indir_cases (fs : FS) (oi : OspfsInode) (r : ResizeRequest) (idx : FileIndex)
    (p : Nat) :
    ∀ st oi2 r2, abf_indir fs oi r idx p = (st, oi2, r2) → st = 0 →
      (r2.resize_type = r.resize_type ∧ r2.blocknos = r.blocknos ∧ r2.n = r.n + 1 ∧
       r2.lower_bound = r.lower_bound ∧ r2.upper_bound = r.upper_bound) ∨
      (r2.resize_type = r.resize_type ||| JOURNAL_RESIZE_INDIRECT ∧
       ((r2.blocknos = r.blocknos.set r.n 0 ∧ r2.n = r.n) ∨
        (r2.blocknos = r.blocknos ∧ r2.n = r.n + 1))) := by
  intro st oi2 r2 heq hst
  subst hst
  simp only [abf_indir] at heq
  split_ifs at heq with hc1 hb hq hi2
  · -- flagged and abandoned
    right
    have hr2 := congrArg (fun t => t.2.2) heq
    dsimp only at hr2
    subst hr2
    exact ⟨rfl, Or.inl ⟨rfl, rfl⟩⟩
  · -- flagged, indirect block allocation failed
    exact absurd (show (-enospc : Int) = 0 from congrArg Prod.fst heq) (by decide)
  · -- flagged, recorded through the tail (doubly-indirect image case)
    right
    have hr2 := congrArg (fun t => t.2.2) heq
    dsimp only at hr2
    subst hr2
    simp [abf_tail_resize, abf_tail_blocknos, abf_tail_n,
      update_bounds_blocknos, update_bounds_n, update_bounds_resize]
  · -- flagged, recorded through the tail (inode indirect pointer case)
    right
    have hr2 := congrArg (fun t => t.2.2) heq
    dsimp only at hr2
    subst hr2
    simp [abf_tail_resize, abf_tail_blocknos, abf_tail_n,
      update_bounds_blocknos, update_bounds_n, update_bounds_resize]
  · -- no boundary: the tail records the pick
    left
    have hr2 := congrArg (fun t => t.2.2) heq
    dsimp only at hr2
    subst hr2
    simp [abf_tail_resize, abf_tail_blocknos, abf_tail_n,
      abf_tail_lower, abf_tail_upper]

/-- Outcome analysis of the doubly-indirect section of
`add_block_file` (which falls through to the indirect section): on
success, either no flag was set and exactly one pick was recorded with
the bounds untouched, or a boundary flag combination was set and the
staged slot was abandoned or recorded. -/
theorem abf_indir2_cases (fs : FS) (oi : OspfsInode) (r : ResizeRequest) (idx : FileIndex)
    (p : Nat) :
    ∀ st oi2 r2, abf_indir2 fs oi r idx p = (st, oi2, r2) → st = 0 →
      (r2.resize_type = r.resize_type ∧ r2.blocknos = r.blocknos ∧ r2.n = r.n + 1 ∧
       r2.lower_bound = r.lower_bound ∧ r2.upper_bound = r.upper_bound) ∨
      ((r2.resize_type = r.resize_type ||| JOURNAL_RESIZE_INDIRECT ∨
        r2.resize_type = r.resize_type ||| JOURNAL_RESIZE_INDIRECT2 ∨
        r2.resize_type = r.resize_type ||| JOURNAL_RESIZE_INDIRECT2 |||
          JOURNAL_RESIZE_INDIRECT) ∧
       ((r2.blocknos = r.blocknos.set r.n 0 ∧ r2.n = r.n) ∨
        (r2.blocknos = r.blocknos ∧ r2.n = r.n + 1))) := by
  intro st oi2 r2 heq hst
  subst hst
  simp only [abf_indir2] at heq
  split_ifs at heq with hc2 hb hq
  · -- INDIRECT2 flagged and abandoned
    right
    have hr2 := congrArg (fun t => t.2.2) heq
    dsimp only at hr2
    subst hr2
    exact ⟨Or.inr (Or.inl rfl), Or.inl ⟨rfl, rfl⟩⟩
  · -- INDIRECT2 flagged, doubly-indirect block allocation failed
    exact absurd (show (-enospc : Int) = 0 from congrArg Prod.fst heq) (by decide)
  · -- INDIRECT2 flagged, fell through to the indirect section
    rcases abf_indir_cases fs
        { oi with oi_indirect2 := find_free_block fs r.lower_bound r.upper_bound }
        (update_bounds
          { r with
            resize_type := r.resize_type ||| JOURNAL_RESIZE_INDIRECT2,
            indirect2_blockno := find_free_block fs r.lower_bound r.upper_bound }
          (find_free_block fs r.lower_bound r.upper_bound))
        idx p _ _ _ heq rfl with
      ⟨hrt2, hbk, hn2, -, -⟩ | ⟨hrt2, hcase⟩
    · right
      rw [update_bounds_resize] at hrt2
      rw [update_bounds_blocknos] at hbk
      rw [update_bounds_n] at hn2
      exact ⟨Or.inr (Or.inl hrt2), Or.inr ⟨hbk, hn2⟩⟩
    · right
      rw [update_bounds_resize] at hrt2
      rw [update_bounds_blocknos, update_bounds_n] at hcase
      exact ⟨Or.inr (Or.inr hrt2), hcase⟩
  · -- no doubly-indirect boundary: delegate to the indirect section
    rcases abf_indir_cases fs oi r idx p _ _ _ heq rfl with
      ⟨hrt2, hbk, hn2, hlb, hub⟩ | ⟨hrt2, hcase⟩
    · exact Or.inl ⟨hrt2, hbk, hn2, hlb, hub⟩
    · exact Or.inr ⟨Or.inl hrt2, hcase⟩

/-- One successful `add_block_file` step keeps the recorded picks
strictly increasing; its flag word stays in `{0,1,2,3}`; and when it
sets no chain-boundary flag it preserves the request invariant. -/
theorem add_block_file_step (fs : FS) (oi : OspfsInode) (r : ResizeRequest)
    (Hout : ∀ b, fs.nblocks ≤ b → fs.bitmap b = false)
    (hInv : ReqInv fs r) (hrt : r.resize_type = 0) (hn : r.n < JOURNAL_MAX_BLOCKS) :
    ∀ st oi2 r2, add_block_file fs oi r = (st, oi2, r2) → st = 0 →
      List.Pairwise (· < ·) (r2.blocknos.take r2.n) ∧
      (r2.resize_type = 0 ∨ r2.resize_type = 1 ∨ r2.resize_type = 2 ∨
        r2.resize_type = 3) ∧
      (r2.resize_type = 0 → ReqInv fs r2) := by
  obtain ⟨hlen, hl1, hlu, hun, hln, Hres, hPw, hbound, h0⟩ := hInv
  intro st oi2 r2 heq hst
  subst hst
  simp only [add_block_file] at heq
  rcases find_free_block_spec fs r.lower_bound r.upper_bound Hres Hout hl1 hln hun with
    hp0 | ⟨hpu, hpn, hpf, hgap⟩
  · rw [if_pos hp0] at heq
    exact absurd (show (-enospc : Int) = 0 from congrArg Prod.fst heq) (by decide)
  have hpne : ¬ find_free_block fs r.lower_bound r.upper_bound = 0 := by omega
  rw [if_neg hpne] at heq
  set p := find_free_block fs r.lower_bound r.upper_bound with hpdef
  have hfb : r.n = 0 → ∀ b, b < p → fs.bitmap b = false := by
    intro hzn b hb
    by_cases hbu : b < r.upper_bound
    · exact h0 hzn b hbu
    · exact hgap b (by omega) hb
  -- field facts of the staged record passed to the boundary sections
  have hlitb : ({ r with
      index := init_file_index oi,
      blocknos := r.blocknos.set r.n p } : ResizeRequest).blocknos =
      r.blocknos.set r.n p := rfl
  have hlitn : ({ r with
      index := init_file_index oi,
      blocknos := r.blocknos.set r.n p } : ResizeRequest).n = r.n := rfl
  have hlitr : ({ r with
      index := init_file_index oi,
      blocknos := r.blocknos.set r.n p } : ResizeRequest).resize_type = 0 := hrt
  rcases abf_indir2_cases _ _ _ _ _ _ _ _ heq rfl with
    ⟨hrt2, hbk, hn2, hlb, hub⟩ | ⟨hrt2, hcase⟩
  · -- no boundary flag: the pick was recorded, bounds moved by update_bounds
    rw [update_bounds_resize, hlitr] at hrt2
    rw [update_bounds_blocknos, hlitb] at hbk
    rw [update_bounds_n, hlitn] at hn2
    have hPw' : List.Pairwise (· < ·) (r2.blocknos.take r2.n) := by
      rw [hbk, hn2, list_take_succ_set r.blocknos r.n p (by omega)]
      exact pairwise_lt_snoc _ _ hPw (fun x hx => by have := hbound x hx; omega)
    have hboundgen : ∀ x ∈ r2.blocknos.take r2.n, x < p + 1 := by
      rw [hbk, hn2, list_take_succ_set r.blocknos r.n p (by omega)]
      intro x hx
      rcases List.mem_append.mp hx with hx | hx
      · have := hbound x hx; omega
      · have := List.mem_singleton.mp hx; omega
    refine ⟨hPw', Or.inl hrt2, fun _ => ?_⟩
    by_cases hn0 : r.n = 0
    · have hb2 := (update_bounds_bounds
        { r with index := init_file_index oi, blocknos := r.blocknos.set r.n p } p).1 hn0
      have hlb' : r2.lower_bound = p := by rw [hlb, hb2.1]
      have hub' : r2.upper_bound = p + 1 := by rw [hub, hb2.2]
      refine ⟨?_, ?_, ?_, ?_, ?_, ?_, hPw', ?_, ?_⟩
      · rw [hbk]; simpa using hlen
      · rw [hlb']; omega
      · rw [hlb', hub']; omega
      · rw [hub']; omega
      · rw [hlb']; omega
      · rw [hlb']; exact fun b hb => hfb hn0 b hb
      · rw [hub']; exact hboundgen
      · rw [hn2]; intro hfalse; omega
    · have hb2 := (update_bounds_bounds
        { r with index := init_file_index oi, blocknos := r.blocknos.set r.n p } p).2 hn0
      have hlb' : r2.lower_bound = r.lower_bound := by rw [hlb, hb2.1]
      have hub' : r2.upper_bound = p + 1 := by rw [hub, hb2.2]
      refine ⟨?_, ?_, ?_, ?_, ?_, ?_, hPw', ?_, ?_⟩
      · rw [hbk]; simpa using hlen
      · rw [hlb']; omega
      · rw [hlb', hub']; omega
      · rw [hub']; omega
      · rw [hlb']; omega
      · rw [hlb']; exact Hres
      · rw [hub']; exact hboundgen
      · rw [hn2]; intro hfalse; omega
  · -- a boundary flag was set
    have hflag : r2.resize_type = 1 ∨ r2.resize_type = 2 ∨ r2.resize_type = 3 := by
      rcases hrt2 with h | h | h <;> rw [update_bounds_resize, hlitr] at h
      · left; rw [h]; decide
      · right; left; rw [h]; decide
      · right; right; rw [h]; decide
    constructor
    · rcases hcase with ⟨hbk, hn2⟩ | ⟨hbk, hn2⟩
      · rw [update_bounds_blocknos, update_bounds_n, hlitb, hlitn] at hbk
        rw [update_bounds_n, hlitn] at hn2
        rw [hbk, hn2, list_take_set, list_take_set]
        exact hPw
      · rw [update_bounds_blocknos, hlitb] at hbk
        rw [update_bounds_n, hlitn] at hn2
        rw [hbk, hn2, list_take_succ_set r.blocknos r.n p (by omega)]
        exact pairwise_lt_snoc _ _ hPw (fun x hx => by have := hbound x hx; omega)
    refine ⟨?_, fun h0' => ?_⟩
    · rcases hflag with h | h | h
      · exact Or.inr (Or.inl h)
      · exact Or.inr (Or.inr (Or.inl h))
      · exact Or.inr (Or.inr (Or.inr h))
    · rcases hflag with h | h | h <;> rw [h0'] at h <;> omega

/-- `abf_indir` returns status 0 or `-ENOSPC`. -/
theorem abf_indir_status (fs : FS) (oi : OspfsInode) (r : ResizeRequest) (idx : FileIndex)
    (p : Nat) :
    (abf_indir fs oi r idx p).1 = 0 ∨ (abf_indir fs oi r idx p).1 = -enospc := by
  simp only [abf_indir]
  split_ifs <;> first | (left; rfl) | (right; rfl)

/-- `abf_indir2` returns status 0 or `-ENOSPC`. -/
theorem abf_indir2_status (fs : FS) (oi : OspfsInode) (r : ResizeRequest) (idx : FileIndex)
    (p : Nat) :
    (abf_indir2 fs oi r idx p).1 = 0 ∨ (abf_indir2 fs oi r idx p).1 = -enospc := by
  simp only [abf_indir2]
  split_ifs <;>
    first
      | (left; rfl)
      | (right; rfl)
      | exact abf_indir_status ..

/-- `add_block_file` returns status 0 or `-ENOSPC`. -/
theorem add_block_file_status (fs : FS) (oi : OspfsInode) (r : ResizeRequest) :
    (add_block_file fs oi r).1 = 0 ∨ (add_block_file fs oi r).1 = -enospc := by
  simp only [add_block_file]
  split_ifs
  · right; rfl
  · exact abf_indir2_status ..

/-- The staging loop of a grow round only ever records strictly
increasing block numbers, given the bitmap invariant on the reserved
region and the end of the device. -/
theorem grow_stage_pairwise (fs : FS) (desired : Nat)
    (Hout : ∀ b, fs.nblocks ≤ b → fs.bitmap b = false) :
    ∀ fuel oi r, ReqInv fs r → r.resize_type = 0 →
      ∀ st oi2 r2, grow_stage fs desired fuel oi r = (st, oi2, r2) → st = 0 →
        List.Pairwise (· < ·) (r2.blocknos.take r2.n) := by
  intro fuel
  induction fuel with
  | zero =>
    intro oi r hInv hrt st oi2 r2 heq hst
    have hr2 := congrArg (fun t => t.2.2) heq
    dsimp only at hr2
    subst hr2
    exact hInv.2.2.2.2.2.2.1
  | succ n ih =>
    intro oi r hInv hrt st oi2 r2 heq hst
    subst hst
    simp only [grow_stage] at heq
    by_cases hg : r.n < JOURNAL_MAX_BLOCKS ∧ ospfs_size2nblocks oi.oi_size < desired
    · rw [if_pos hg] at heq
      have hst0 : (add_block_file fs oi r).1 = 0 := by
        rcases add_block_file_status fs oi r with h | h
        · exact h
        · exfalso
          by_cases hterr : (add_block_file fs oi r).1 < 0
          · rw [if_pos hterr] at heq
            have hfst := congrArg Prod.fst heq
            dsimp only at hfst
            rw [h] at hfst
            exact absurd hfst (by decide)
          · rw [h] at hterr
            exact hterr (by decide)
      have hterr : ¬ (add_block_file fs oi r).1 < 0 := by rw [hst0]; omega
      rw [if_neg hterr] at heq
      have hstep := add_block_file_step fs oi r Hout hInv hrt hg.1
        (add_block_file fs oi r).1 (add_block_file fs oi r).2.1
        (add_block_file fs oi r).2.2 rfl hst0
      by_cases hflags :
          (add_block_file fs oi r).2.2.resize_type &&& JOURNAL_RESIZE_INDIRECT ≠ 0 ∨
          (add_block_file fs oi r).2.2.resize_type &&& JOURNAL_RESIZE_INDIRECT2 ≠ 0
      · rw [if_pos hflags] at heq
        have hr2 := congrArg (fun t => t.2.2) heq
        dsimp only at hr2
        subst hr2
        exact hstep.1
      · rw [if_neg hflags] at heq
        push_neg at hflags
        have hrt2 : (add_block_file fs oi r).2.2.resize_type = 0 := by
          rcases hstep.2.1 with h | h | h | h
          · exact h
          · rw [h] at hflags; exact absurd hflags.1 (by decide)
          · rw [h] at hflags; exact absurd hflags.2 (by decide)
          · rw [h] at hflags; exact absurd hflags.1 (by decide)
        exact ih (add_block_file fs oi r).2.1 (add_block_file fs oi r).2.2
          (hstep.2.2 hrt2) hrt2 0 oi2 r2 heq rfl
    · rw [if_neg hg] at heq
      have hr2 := congrArg (fun t => t.2.2) heq
      dsimp only at hr2
      subst hr2
      exact hInv.2.2.2.2.2.2.1

/-- The freshly initialized resize request of a grow round satisfies
the batch invariant. -/
theorem init_resize_request_inv (fs : FS) (oi : OspfsInode)
    (Hres : ∀ b, b < fs.firstdatab → fs.bitmap b = false)
    (hfd : 2 ≤ fs.firstdatab) (hfn : fs.firstdatab ≤ fs.nblocks) :
    ReqInv fs (init_resize_request fs oi) := by
  have hbl : (init_resize_request fs oi).blocknos =
      List.replicate JOURNAL_MAX_BLOCKS 0 := rfl
  have hnn : (init_resize_request fs oi).n = 0 := rfl
  have hlo : (init_resize_request fs oi).lower_bound = fs.firstdatab - 1 := rfl
  have hup : (init_resize_request fs oi).upper_bound = fs.firstdatab := rfl
  refine ⟨?_, ?_, ?_, ?_, ?_, ?_, ?_, ?_, ?_⟩
  · rw [hbl]; simp
  · rw [hlo]; omega
  · rw [hlo, hup]; omega
  · rw [hup]; omega
  · rw [hlo]; omega
  · rw [hlo]; exact fun b hb => Hres b (by omega)
  · rw [hnn]; exact List.Pairwise.nil
  · rw [hnn]
    intro x hx
    simp at hx
  · rw [hup]
    exact fun _ b hb => Hres b hb

/-- C3 amended: an ALLOC journal transaction committed by a grow round
(`grow_stage` from a freshly initialized request, serialized by
`change_size_to_journal`) has a strictly increasing block-number list
in its first `n_blocks_affected` entries, provided the bitmap marks
every reserved block (below `first_data_block`) and every out-of-range
block as allocated.  FREE transactions from the shrink path violate the
original claim (see the counterexample). -/
theorem alloc_batch_strictly_increasing (fs : FS) (oi : OspfsInode) (desired : Nat)
    (header : JournalHeader)
    (Hres : ∀ b, b < fs.firstdatab → fs.bitmap b = false)
    (Hout : ∀ b, fs.nblocks ≤ b → fs.bitmap b = false)
    (hfd : 2 ≤ fs.firstdatab) (hfn : fs.firstdatab ≤ fs.nblocks) :
    ∀ st oi2 r2,
      grow_stage fs desired (JOURNAL_MAX_BLOCKS + 1) oi (init_resize_request fs oi) =
        (st, oi2, r2) → st = 0 →
      List.Pairwise (· < ·)
        ((change_size_to_journal header r2 fs).2.journal.blocknos.take
          ((change_size_to_journal header r2 fs).2.journal.header.n_blocks_affected)) := by
  intro st oi2 r2 heq hst
  have hjb : (change_size_to_journal header r2 fs).2.journal.blocknos = r2.blocknos := by
    simp only [change_size_to_journal]
    split_ifs <;> rfl
  have hjn : (change_size_to_journal header r2 fs).2.journal.header.n_blocks_affected =
      r2.n := by
    simp only [change_size_to_journal]
    split_ifs <;> rfl
  rw [hjb, hjn]
  exact grow_stage_pairwise fs desired Hout (JOURNAL_MAX_BLOCKS + 1) oi
    (init_resize_request fs oi) (init_resize_request_inv fs oi Hres hfd hfn) rfl
    st oi2 r2 heq hst

/-- C3 witness: the strictly increasing committed list of a concrete
grow round (two picks, blocks 16 then 17) on `fsShrink`. -/
theorem alloc_batch_strictly_increasing_witness :
    List.Pairwise (· < ·)
      ((change_size_to_journal zeroHeader
          (grow_stage fsShrink 4 (JOURNAL_MAX_BLOCKS + 1) (fsShrink.inodes 1)
            (init_resize_request fsShrink (fsShrink.inodes 1))).2.2
          fsShrink).2.journal.blocknos.take
        ((change_size_to_journal zeroHeader
          (grow_stage fsShrink 4 (JOURNAL_MAX_BLOCKS + 1) (fsShrink.inodes 1)
            (init_resize_request fsShrink (fsShrink.inodes 1))).2.2
          fsShrink).2.journal.header.n_blocks_affected)) :=
  alloc_batch_strictly_increasing fsShrink (fsShrink.inodes 1) 4 zeroHeader
    (by decide)
    (fun b hb => by
      have h30 : fsShrink.nblocks = 30 := rfl
      rw [h30] at hb
      have hb' : ¬ b < 30 := by omega
      simp [fsShrink, hb'])
    (by decide) (by decide) _ _ _ rfl (by decide)
